import Mathlib

/-!
Verification development for the PII detection and de-identification engine
(`backend/pii_redactor.py`).  The Python module is shallowly embedded: field
text is `List Char` (ASCII semantics for character classes, matching the
identifier formats the engine targets), Python `float` confidences are `ℚ`
(all confidence literals are exact decimal fractions), fallible primitives
(`int(...)`, `datetime.strptime`) are `Option`-valued, and the mutable
per-processor counters are threaded as explicit state.
-/

set_option maxRecDepth 10000

/-- Field text: a Python `str` as a list of characters. -/
abbrev Str := List Char

/-- ASCII model of the character class `\w` used by `re` word boundaries. -/
def isWordChar (c : Char) : Bool :=
  c.isAlpha || c.isDigit || c == '_'

/-- ASCII model of the regex class `\s` (Python whitespace). -/
def isPySpace (c : Char) : Bool :=
  c == ' ' || c == '\t' || c == '\n' || c == '\r' || c == '\x0b' || c == '\x0c'

/-- Numeric value of an ASCII digit character. -/
def dval (c : Char) : Nat := c.toNat - '0'.toNat

/-- The superscript and subscript digit characters: Python's
`str.isdigit` accepts them (they carry the Unicode digit property) while
`int()` rejects them with a `ValueError`, because they are not decimal
digits.  They are the exception-relevant non-ASCII fragment of the
modeled character universe; other non-ASCII characters (including the
non-ASCII decimal digits, for which `isdigit` and `int` agree) are
outside the embedding's scope. -/
def isNonDecimalDigitChar (c : Char) : Bool :=
  ['⁰', '¹', '²', '³', '⁴', '⁵', '⁶', '⁷', '⁸', '⁹',
   '₀', '₁', '₂', '₃', '₄', '₅', '₆', '₇', '₈', '₉'].contains c

/-- Model of `str.isdigit` on one character: decimal digits and the
digit-property characters above. -/
def pyCharIsDigit (c : Char) : Bool := c.isDigit || isNonDecimalDigitChar c

/-- Model of Python `str.isdigit()`: nonempty and every character has
the digit property.  Note this is strictly wider than what `int()`
accepts. -/
def pyIsDigit (s : Str) : Bool :=
  !s.isEmpty && s.all pyCharIsDigit

/-- Natural number denoted by a digit string (most significant first). -/
def digitsToNat (s : Str) : Nat :=
  s.foldl (fun acc c => 10 * acc + dval c) 0

/-- Model of Python `int(str)`: succeeds exactly on nonempty strings of
decimal digits; in particular it raises (`none`) on digit-property
characters such as `'²'` even though `isdigit` accepts them.  (Signed
or whitespace-padded numerals are outside the modeled universe; no call
site of the module can produce them.) -/
def pyInt (s : Str) : Option Nat :=
  if !s.isEmpty && s.all Char.isDigit then some (digitsToNat s) else none

/-- Model of Python `str.split(sep)` for a one-character separator:
splits at every occurrence, keeping empty parts. -/
def pySplit (sep : Char) : Str → List Str
  | [] => [[]]
  | c :: rest =>
    let r := pySplit sep rest
    if c == sep then [] :: r
    else match r with
      | [] => [[c]]
      | p :: ps => (c :: p) :: ps

/-- Python slice `s[a:b]` (with the usual clamping). -/
def pySlice (s : Str) (a b : Nat) : Str := (s.drop a).take (b - a)

/-- Substring containment, Python's `pat in s`. -/
def containsSub (pat s : Str) : Bool :=
  (List.range (s.length + 1)).any (fun i => (s.drop i).take pat.length == pat)

/-- Length of the maximal run of characters satisfying `p` starting at
absolute position `i` of `s`. -/
def runLen (p : Char → Bool) (s : Str) (i : Nat) : Nat :=
  ((s.drop i).takeWhile p).length

/-- Whether the character at absolute position `i` exists and is a word
character (out of range counts as non-word, as in `re`). -/
def isWordAt (s : Str) (i : Nat) : Bool :=
  match s.get? i with
  | some c => isWordChar c
  | none => false

/-- The regex word boundary `\b` at position `p` of `s`. -/
def wordBoundary (s : Str) (p : Nat) : Bool :=
  (match p with
   | 0 => false
   | q + 1 => isWordAt s q) != isWordAt s p

/-- Exact character-class template match: `s` starting at absolute
position `p` has consecutive characters satisfying each class in `cs`. -/
def matchClasses (s : Str) (p : Nat) : List (Char → Bool) → Bool
  | [] => true
  | f :: fs =>
    match s.get? p with
    | some c => f c && matchClasses s (p + 1) fs
    | none => false

/-- Template match of a whole string against a class list (models a
fully anchored `re.match(r"^...$", s)` of a fixed-shape pattern). -/
def classesShape (cs : List (Char → Bool)) (s : Str) : Bool :=
  s.length == cs.length && matchClasses s 0 cs

/-!
## Validators (`pii_redactor.py` lines 28-97)
-/

/-- Substitution table `_d` of `verhoeff_validate`. -/
def verhoeff_d : List (List Nat) :=
  [[0,1,2,3,4,5,6,7,8,9], [1,2,3,4,0,6,7,8,9,5], [2,3,4,0,1,7,8,9,5,6],
   [3,4,0,1,2,8,9,5,6,7], [4,0,1,2,3,9,5,6,7,8], [5,9,8,7,6,0,4,3,2,1],
   [6,5,9,8,7,1,0,4,3,2], [7,6,5,9,8,2,1,0,4,3], [8,7,6,5,9,3,2,1,0,4],
   [9,8,7,6,5,4,3,2,1,0]]

/-- Permutation table `_p` of `verhoeff_validate`. -/
def verhoeff_p : List (List Nat) :=
  [[0,1,2,3,4,5,6,7,8,9], [1,5,7,6,2,8,3,0,9,4], [5,8,0,3,7,9,6,1,4,2],
   [8,9,1,6,0,4,3,5,2,7], [9,4,5,3,1,2,6,8,7,0], [4,2,8,6,5,7,3,9,0,1],
   [2,7,9,3,8,0,6,4,1,5], [7,0,4,6,9,1,3,2,5,8]]

/-- Row-then-column lookup in one of the Verhoeff tables. -/
def tbl (t : List (List Nat)) (i j : Nat) : Nat := (t.getD i []).getD j 0

/-- The checksum loop of `verhoeff_validate`; `none` models the
`ValueError` that `int(item)` raises on a non-digit character. -/
def verhoeffLoop (num : Str) : Option Nat :=
  num.reverse.enum.foldlM
    (fun c ii =>
      match pyInt [ii.2] with
      | some d => some (tbl verhoeff_d c (tbl verhoeff_p (ii.1 % 8) d))
      | none => none)
    0

/-- `verhoeff_validate`: the `try`/`except` returns `False` whenever the
loop raises. -/
def verhoeff_validate (num : Str) : Bool :=
  match verhoeffLoop num with
  | some c => c == 0
  | none => false

/-- The doubling step of `luhn_check`. -/
def luhnDouble (d : Nat) : Nat :=
  let t := d * 2
  if t > 9 then t - 9 else t

/-- `luhn_check`: strip non-digits, require 13-19 digits, then the
mod-10 checksum with every second digit from the right doubled. -/
def luhn_check (number : Str) : Bool :=
  let digits := (number.filter Char.isDigit).map dval
  if digits.length < 13 || digits.length > 19 then false
  else
    let r := digits.reverse.foldl
      (fun (acc : Nat × Bool) d =>
        (acc.1 + (if acc.2 then luhnDouble d else d), !acc.2))
      (0, false)
    r.1 % 10 == 0

/-- `validate_indian_phone`: 10 digits after stripping separators, first
digit in 6-9 (the indexing is guarded by the length check, as in the
source's short-circuiting `and`). -/
def validate_indian_phone (phone : Str) : Bool :=
  let digits := phone.filter Char.isDigit
  digits.length == 10 &&
    (match digits with
     | c :: _ => c == '6' || c == '7' || c == '8' || c == '9'
     | [] => false)

/-- Character class `[A-Z0-9]`. -/
def isUpperAlnum (c : Char) : Bool := c.isUpper || c.isDigit

/-- `validate_ifsc`: `^[A-Z]{4}0[A-Z0-9]{6}$` on the uppercased input. -/
def validate_ifsc (ifsc : Str) : Bool :=
  classesShape
    (List.replicate 4 Char.isUpper ++ [fun c => c == '0'] ++
      List.replicate 6 isUpperAlnum)
    (ifsc.map Char.toUpper)

/-- `validate_voter_id`: `^[A-Z]{3}\d{7}$` on the uppercased input. -/
def validate_voter_id (voter_id : Str) : Bool :=
  classesShape
    (List.replicate 3 Char.isUpper ++ List.replicate 7 Char.isDigit)
    (voter_id.map Char.toUpper)

/-- `validate_driving_license`: `^[A-Z]{2}\d{2}/\d{6}/\d{4}$` on the
uppercased input. -/
def validate_driving_license (dl : Str) : Bool :=
  classesShape
    (List.replicate 2 Char.isUpper ++ List.replicate 2 Char.isDigit ++
      [fun c => c == '/'] ++ List.replicate 6 Char.isDigit ++
      [fun c => c == '/'] ++ List.replicate 4 Char.isDigit)
    (dl.map Char.toUpper)

/-- The comprehension `all(0 <= int(p) <= 255 for p in parts if
p.isdigit())` of `validate_ip`: parts failing `isdigit` are silently
skipped by the `if` filter; a kept part is converted by `int`, whose
`ValueError` (`none`) aborts the scan and escapes — unless an earlier
in-range check already returned `False`, since `all` short-circuits on
the first falsy value before the raising part is ever reached. -/
def ipAll255 : List Str → Option Bool
  | [] => some true
  | p :: rest =>
    if pyIsDigit p then
      match pyInt p with
      | some n => if n ≤ 255 then ipAll255 rest else some false
      | none => none
    else ipAll255 rest

/-- `validate_ip`: split on dots, require 4 parts (the `and`
short-circuits, so a wrong part count never reaches `int`), then run
the filtered bound check.  The result is `none` when the body raises
`ValueError` — which happens on digit-property non-decimal parts such
as `"²"` — and `some b` when it returns the boolean `b`. -/
def validate_ip (ip : Str) : Option Bool :=
  let parts := pySplit '.' ip
  if parts.length == 4 then ipAll255 parts else some false

/-- Leap-year rule of the proleptic Gregorian calendar used by
`datetime`. -/
def isLeap (y : Nat) : Bool := y % 4 == 0 && (y % 100 != 0 || y % 400 == 0)

/-- Days in a month, as `datetime` validates them. -/
def daysInMonth (m y : Nat) : Nat :=
  if m = 2 then (if isLeap y then 29 else 28)
  else if m = 4 || m = 6 || m = 9 || m = 11 then 30
  else 31

/-- Candidate parses of `%d` in source order (`3[01]|[12]\d|0[1-9]|[1-9]`),
each with the remaining input. -/
def dayCands : Str → List (Nat × Str)
  | s =>
    (match s with
     | '3' :: c :: r => if c == '0' || c == '1' then [(30 + dval c, r)] else []
     | _ => []) ++
    (match s with
     | a :: c :: r =>
        if (a == '1' || a == '2') && c.isDigit then [(10 * dval a + dval c, r)] else []
     | _ => []) ++
    (match s with
     | '0' :: c :: r => if c.isDigit && c != '0' then [(dval c, r)] else []
     | _ => []) ++
    (match s with
     | a :: r => if a.isDigit && a != '0' then [(dval a, r)] else []
     | _ => [])

/-- Candidate parses of `%m` in source order (`1[0-2]|0[1-9]|[1-9]`). -/
def monthCands : Str → List (Nat × Str)
  | s =>
    (match s with
     | '1' :: c :: r =>
        if c == '0' || c == '1' || c == '2' then [(10 + dval c, r)] else []
     | _ => []) ++
    (match s with
     | '0' :: c :: r => if c.isDigit && c != '0' then [(dval c, r)] else []
     | _ => []) ++
    (match s with
     | a :: r => if a.isDigit && a != '0' then [(dval a, r)] else []
     | _ => [])

/-- Parse of `%Y`: exactly four digits. -/
def yearParse : Str → Option (Nat × Str)
  | a :: b :: c :: d :: r =>
    if a.isDigit && b.isDigit && c.isDigit && d.isDigit then
      some (1000 * dval a + 100 * dval b + 10 * dval c + dval d, r)
    else none
  | _ => none

/-- Model of `datetime.strptime(s, "%d/%m/%Y")`: regex-style parse with
backtracking over the day/month alternatives, full-input consumption,
then calendar validation (`none` models `ValueError`). -/
def pyStrptimeDMY (s : Str) : Option (Nat × Nat × Nat) :=
  (dayCands s).findSome? (fun dr =>
    match dr.2 with
    | '/' :: r2 =>
      (monthCands r2).findSome? (fun mr =>
        match mr.2 with
        | '/' :: r4 =>
          match yearParse r4 with
          | some (y, r5) =>
            if r5.isEmpty && 1 ≤ y && 1 ≤ dr.1 && dr.1 ≤ daysInMonth mr.1 y then
              some (dr.1, mr.1, y)
            else none
          | none => none
        | _ => none)
    | _ => none)

/-- `validate_dob`: `True` exactly when `strptime` does not raise. -/
def validate_dob (dob : Str) : Bool :=
  match pyStrptimeDMY dob with
  | some _ => true
  | none => false

/-- `validate_medical_id`: `^MED[A-Z0-9]{8}$` on the uppercased input. -/
def validate_medical_id (mid : Str) : Bool :=
  classesShape
    ([fun c => c == 'M', fun c => c == 'E', fun c => c == 'D'] ++
      List.replicate 8 isUpperAlnum)
    (mid.map Char.toUpper)

/-!
## Pattern registry (`ENHANCED_PII_PATTERNS`, lines 102-115)

Each compiled regex is embedded as a matcher `Str → Nat → Option Nat`
returning the end offset of the match that Python's backtracking engine
produces at a given start position, or `none`.  The matchers below are
hand-derived deterministic forms of the twelve patterns; alternatives are
tried in source order and greedy/lazy quantifier behaviour is resolved
explicitly.
-/

/-- A regex match object; `start`/`stop` are `match.start()`/`match.end()`. -/
structure PyMatch where
  start : Nat
  stop : Nat
deriving DecidableEq, Repr

/-- Class list for the spaced alternative of the aadhaar pattern
`\d{4}\s\d{4}\s\d{4}`. -/
def aadhaarSpaced : List (Char → Bool) :=
  List.replicate 4 Char.isDigit ++ [isPySpace] ++ List.replicate 4 Char.isDigit ++
    [isPySpace] ++ List.replicate 4 Char.isDigit

/-- Matcher for `\b(?:(\d{4}\s\d{4}\s\d{4})|(\d{12}))\b`; the first
alternative is preferred, exactly as `re` tries alternatives in order. -/
def aadhaarMatchAt (s : Str) (p : Nat) : Option Nat :=
  if !wordBoundary s p then none
  else if matchClasses s p aadhaarSpaced && wordBoundary s (p + 14) then some (p + 14)
  else if matchClasses s p (List.replicate 12 Char.isDigit) && wordBoundary s (p + 12) then
    some (p + 12)
  else none

/-- Matcher for `\b([A-Z]{5}[0-9]{4}[A-Z])\b`. -/
def panMatchAt (s : Str) (p : Nat) : Option Nat :=
  if wordBoundary s p &&
      matchClasses s p
        (List.replicate 5 Char.isUpper ++ List.replicate 4 Char.isDigit ++ [Char.isUpper]) &&
      wordBoundary s (p + 10) then
    some (p + 10)
  else none

/-- The separator class `[ -]` of the credit-card pattern. -/
def isCcSep (c : Char) : Bool := c == ' ' || c == '-'

/-- End positions of the digits consumable by `(?:\d[ -]*?){13,19}` from
absolute position `p` (the suffix `s.drop p` is passed alongside `p`).
A lazy separator run is crossed only when another digit follows, and at
most `b` digits are consumed.  The first argument is recursion fuel;
every step consumes at least one character, so any fuel exceeding the
suffix length is enough and the fuel pattern never truncates a result. -/
def ccCollect : Nat → Str → Nat → Nat → List Nat
  | 0, _, _, _ => []
  | _ + 1, _, _, 0 => []
  | _ + 1, [], _, _ + 1 => []
  | fuel + 1, c :: rest, p, b + 1 =>
    if c.isDigit then (p + 1) :: ccCollect fuel rest (p + 1) b
    else if isCcSep c then
      let k := ((c :: rest).takeWhile isCcSep).length
      match (c :: rest).get? k with
      | some c2 => if c2.isDigit then ccCollect fuel ((c :: rest).drop k) (p + k) (b + 1) else []
      | none => []
    else []

/-- Matcher for `\b(?:\d[ -]*?){13,19}\b`: the greedy counted repetition
takes as many digits as reachable (up to 19), then gives digits back one
at a time until the trailing `\b` holds; a match always ends right after
a digit, and at least 13 digits must be consumed. -/
def creditCardMatchAt (s : Str) (p : Nat) : Option Nat :=
  if !wordBoundary s p then none
  else
    match s.get? p with
    | some c =>
      if c.isDigit then
        let ends := ccCollect (s.length + 1) (s.drop p) p 19
        ((ends.drop 12).reverse).find? (fun e => !isWordAt s e)
      else none
    | none => none

/-- The local-part class `[A-Za-z0-9._%+-]` of the email pattern. -/
def localClass (c : Char) : Bool :=
  c.isAlpha || c.isDigit || c == '.' || c == '_' || c == '%' || c == '+' || c == '-'

/-- The domain class `[A-Za-z0-9.-]` of the email pattern. -/
def domainClass (c : Char) : Bool :=
  c.isAlpha || c.isDigit || c == '.' || c == '-'

/-- Backtracking over the dot chosen by `\.[A-Za-z]{2,}\b` at the end of
the email pattern: dots are tried right-to-left inside the maximal
domain run (offsets `dstart + j + 1` for `j` counting down), and after a
chosen dot only the maximal letter run can satisfy the trailing `\b`. -/
def emailTryDots (s : Str) (dstart : Nat) : Nat → Option Nat
  | 0 => none
  | j + 1 =>
    let dotPos := dstart + (j + 1)
    if s.get? dotPos == some '.' then
      let t := runLen Char.isAlpha s (dotPos + 1)
      if 2 ≤ t && !isWordAt s (dotPos + 1 + t) then some (dotPos + 1 + t)
      else emailTryDots s dstart j
    else emailTryDots s dstart j

/-- Matcher for `\b[A-Za-z0-9._%+-]+@[A-Za-z0-9.-]+\.[A-Za-z]{2,}\b`:
the greedy `+` runs are maximal (no shorter run can be followed by `@`
or `.` since those characters are outside the classes). -/
def emailMatchAt (s : Str) (p : Nat) : Option Nat :=
  if !wordBoundary s p then none
  else
    let l := runLen localClass s p
    if l == 0 then none
    else if s.get? (p + l) == some '@' then
      let dstart := p + l + 1
      let r := runLen domainClass s dstart
      if r == 0 then none
      else emailTryDots s dstart (r - 1)
    else none

/-- The separator class `[-\s]` of the phone pattern. -/
def isPhoneSep (c : Char) : Bool := c == '-' || isPySpace c

/-- The leading class `[6-9]` of the phone alternatives. -/
def isSixToNine (c : Char) : Bool := c == '6' || c == '7' || c == '8' || c == '9'

/-- The two alternatives `[6-9]\d{9}` and `[6-9]\d{2}[-\s]\d{3}[-\s]\d{4}`
followed by `\b`, tried in source order (their character demands at
offset 3 are disjoint, so trying both is exactly `re`'s backtracking). -/
def phoneTail (s : Str) (q : Nat) : Option Nat :=
  if matchClasses s q ([isSixToNine] ++ List.replicate 9 Char.isDigit) &&
      wordBoundary s (q + 10) then some (q + 10)
  else if matchClasses s q
      ([isSixToNine] ++ List.replicate 2 Char.isDigit ++ [isPhoneSep] ++
        List.replicate 3 Char.isDigit ++ [isPhoneSep] ++ List.replicate 4 Char.isDigit) &&
      wordBoundary s (q + 12) then some (q + 12)
  else none

/-- Matcher for `\b(?:\+91[-\s]?)?(?:[6-9]\d{9}|[6-9]\d{2}[-\s]\d{3}[-\s]\d{4})\b`:
the optional `+91` group and its optional separator are greedy; when the
group cannot match, skipping it can only succeed if the first character
is already `[6-9]`. -/
def phoneMatchAt (s : Str) (p : Nat) : Option Nat :=
  if !wordBoundary s p then none
  else if matchClasses s p [fun c => c == '+', fun c => c == '9', fun c => c == '1'] then
    match (if (s.get? (p + 3)).any isPhoneSep then phoneTail s (p + 4) else none) with
    | some e => some e
    | none => phoneTail s (p + 3)
  else phoneTail s p

/-- Matcher for `\b([A-Z]{4}0[A-Z0-9]{6})\b`. -/
def ifscMatchAt (s : Str) (p : Nat) : Option Nat :=
  if wordBoundary s p &&
      matchClasses s p
        (List.replicate 4 Char.isUpper ++ [fun c => c == '0'] ++ List.replicate 6 isUpperAlnum) &&
      wordBoundary s (p + 11) then
    some (p + 11)
  else none

/-- Matcher for `\b\d{9,18}\b`: the greedy bounded repetition can only
end a match where the digit run itself ends (giving back a digit leaves
a digit — a word character — after the match, killing the `\b`). -/
def bankAccountMatchAt (s : Str) (p : Nat) : Option Nat :=
  if !wordBoundary s p then none
  else
    let d := runLen Char.isDigit s p
    if 9 ≤ d && d ≤ 18 && !isWordAt s (p + d) then some (p + d) else none

/-- Matcher for `\b([A-Z]{3}\d{7})\b`. -/
def voterIdMatchAt (s : Str) (p : Nat) : Option Nat :=
  if wordBoundary s p &&
      matchClasses s p (List.replicate 3 Char.isUpper ++ List.replicate 7 Char.isDigit) &&
      wordBoundary s (p + 10) then
    some (p + 10)
  else none

/-- Matcher for `\b([A-Z]{2}\d{2}/\d{6}/\d{4})\b`. -/
def drivingLicenseMatchAt (s : Str) (p : Nat) : Option Nat :=
  if wordBoundary s p &&
      matchClasses s p
        (List.replicate 2 Char.isUpper ++ List.replicate 2 Char.isDigit ++
          [fun c => c == '/'] ++ List.replicate 6 Char.isDigit ++
          [fun c => c == '/'] ++ List.replicate 4 Char.isDigit) &&
      wordBoundary s (p + 16) then
    some (p + 16)
  else none

/-- One step `\d{1,3}\.` of the IP pattern: only the full (maximal) digit
run of length 1-3 can be followed by the literal dot. -/
def ipOctetAt (s : Str) (p : Nat) : Option Nat :=
  let r := runLen Char.isDigit s p
  if 1 ≤ r && r ≤ 3 && s.get? (p + r) == some '.' then some (p + r + 1) else none

/-- Matcher for `\b(?:\d{1,3}\.){3}\d{1,3}\b`. -/
def ipMatchAt (s : Str) (p : Nat) : Option Nat :=
  if !wordBoundary s p then none
  else
    match ipOctetAt s p with
    | some q1 =>
      match ipOctetAt s q1 with
      | some q2 =>
        match ipOctetAt s q2 with
        | some q3 =>
          let r := runLen Char.isDigit s q3
          if 1 ≤ r && r ≤ 3 && !isWordAt s (q3 + r) then some (q3 + r) else none
        | none => none
      | none => none
    | none => none

/-- Matcher for `\b(\d{2}/\d{2}/\d{4})\b`. -/
def dobMatchAt (s : Str) (p : Nat) : Option Nat :=
  if wordBoundary s p &&
      matchClasses s p
        (List.replicate 2 Char.isDigit ++ [fun c => c == '/'] ++
          List.replicate 2 Char.isDigit ++ [fun c => c == '/'] ++
          List.replicate 4 Char.isDigit) &&
      wordBoundary s (p + 10) then
    some (p + 10)
  else none

/-- Matcher for `\b(MED[A-Z0-9]{8})\b`. -/
def medicalIdMatchAt (s : Str) (p : Nat) : Option Nat :=
  if wordBoundary s p &&
      matchClasses s p
        ([fun c => c == 'M', fun c => c == 'E', fun c => c == 'D'] ++
          List.replicate 8 isUpperAlnum) &&
      wordBoundary s (p + 11) then
    some (p + 11)
  else none

/-- The scan loop of `re.finditer`: try each position left to right,
resume after a match (or one past it, for an empty match).  The last
argument is recursion fuel; the position strictly increases at every
step and scanning stops once it passes the text length, so fuel
`s.length + 1` is always enough and never truncates the match list. -/
def finditerFrom (matchAt : Str → Nat → Option Nat) (s : Str) : Nat → Nat → List PyMatch
  | _, 0 => []
  | p, fuel + 1 =>
    if s.length < p then []
    else
      match matchAt s p with
      | some e => ⟨p, e⟩ :: finditerFrom matchAt s (max e (p + 1)) fuel
      | none => finditerFrom matchAt s (p + 1) fuel

/-- All matches of a pattern in `s`, as `re.finditer` yields them. -/
def finditer (matchAt : Str → Nat → Option Nat) (s : Str) : List PyMatch :=
  finditerFrom matchAt s 0 (s.length + 1)

/-- The pattern registry, in the insertion (iteration) order of the
`ENHANCED_PII_PATTERNS` dict. -/
def ENHANCED_PII_PATTERNS : List (String × (Str → Nat → Option Nat)) :=
  [("aadhaar", aadhaarMatchAt),
   ("pan", panMatchAt),
   ("credit_card", creditCardMatchAt),
   ("email", emailMatchAt),
   ("phone", phoneMatchAt),
   ("ifsc", ifscMatchAt),
   ("bank_account", bankAccountMatchAt),
   ("voter_id", voterIdMatchAt),
   ("driving_license", drivingLicenseMatchAt),
   ("ip_address", ipMatchAt),
   ("dob", dobMatchAt),
   ("medical_id", medicalIdMatchAt)]
/-!
## Masking registry (`ENHANCED_DEIDENTIFY`, lines 120-228)

The hash-based anonymizers call `hashlib.sha256` / `hashlib.md5`; both
digests are implemented below over `Nat` with explicit `% 2^32`
arithmetic (round constants are the standard published values:
fractional cube/square roots of primes for SHA-256, `floor(|sin(i+1)| *
2^32)` for MD5).
-/

/-- Reduce modulo `2^32`. -/
def w32 (n : Nat) : Nat := n % 4294967296

/-- Bitwise complement on 32-bit words represented as `Nat`. -/
def not32 (x : Nat) : Nat := 4294967295 - x

/-- 32-bit rotate right. -/
def rotr32 (x n : Nat) : Nat := w32 ((x >>> n) ||| (x <<< (32 - n)))

/-- 32-bit rotate left. -/
def rotl32 (x n : Nat) : Nat := w32 ((x <<< n) ||| (x >>> (32 - n)))

/-- UTF-8 encoding of one character. -/
def utf8Char (c : Char) : List Nat :=
  let n := c.toNat
  if n < 128 then [n]
  else if n < 2048 then [192 + n / 64, 128 + n % 64]
  else if n < 65536 then [224 + n / 4096, 128 + (n / 64) % 64, 128 + n % 64]
  else [240 + n / 262144, 128 + (n / 4096) % 64, 128 + (n / 64) % 64, 128 + n % 64]

/-- Python `str.encode("utf-8")`: the byte sequence fed to `hashlib`. -/
def utf8Encode (s : Str) : List Nat := (s.map utf8Char).flatten

/-- Merkle-Damgard padding shared by MD5 and SHA-256: append `0x80`,
zero-pad to 56 mod 64, then the bit length as eight bytes (big-endian
for SHA-256, little-endian for MD5). -/
def padMessage (bigEndianLen : Bool) (msg : List Nat) : List Nat :=
  let len := msg.length
  let padZeros := (119 - len % 64) % 64
  let lenBits := 8 * len
  let lenBytes := (List.range 8).map (fun i => (lenBits >>> (8 * (7 - i))) % 256)
  msg ++ [128] ++ List.replicate padZeros 0 ++
    (if bigEndianLen then lenBytes else lenBytes.reverse)

/-- Split a padded message into 64-byte blocks (fuel-structural; each
step consumes 64 bytes). -/
def chunks64 : Nat → List Nat → List (List Nat)
  | 0, _ => []
  | _ + 1, [] => []
  | fuel + 1, l => l.take 64 :: chunks64 fuel (l.drop 64)

/-- Big-endian 4-byte groups to 32-bit words. -/
def bytesToWordsBE : List Nat → List Nat
  | a :: b :: c :: d :: rest =>
    (a * 16777216 + b * 65536 + c * 256 + d) :: bytesToWordsBE rest
  | _ => []

/-- Little-endian 4-byte groups to 32-bit words. -/
def bytesToWordsLE : List Nat → List Nat
  | a :: b :: c :: d :: rest =>
    (d * 16777216 + c * 65536 + b * 256 + a) :: bytesToWordsLE rest
  | _ => []

/-- SHA-256 round constants. -/
def shaK : List Nat :=
  [1116352408, 1899447441, 3049323471, 3921009573, 961987163, 1508970993,
   2453635748, 2870763221, 3624381080, 310598401, 607225278, 1426881987,
   1925078388, 2162078206, 2614888103, 3248222580, 3835390401, 4022224774,
   264347078, 604807628, 770255983, 1249150122, 1555081692, 1996064986,
   2554220882, 2821834349, 2952996808, 3210313671, 3336571891, 3584528711,
   113926993, 338241895, 666307205, 773529912, 1294757372, 1396182291,
   1695183700, 1986661051, 2177026350, 2456956037, 2730485921, 2820302411,
   3259730800, 3345764771, 3516065817, 3600352804, 4094571909, 275423344,
   430227734, 506948616, 659060556, 883997877, 958139571, 1322822218,
   1537002063, 1747873779, 1955562222, 2024104815, 2227730452, 2361852424,
   2428436474, 2756734187, 3204031479, 3329325298]

/-- SHA-256 initial state. -/
def shaH0 : List Nat :=
  [1779033703, 3144134277, 1013904242, 2773480762, 1359893119, 2600822924,
   528734635, 1541459225]

/-- One word of the SHA-256 message schedule, from the words so far. -/
def shaNextW (w : List Nat) : Nat :=
  let n := w.length
  let x := w.getD (n - 15) 0
  let y := w.getD (n - 2) 0
  let s0 := (rotr32 x 7) ^^^ (rotr32 x 18) ^^^ (x >>> 3)
  let s1 := (rotr32 y 17) ^^^ (rotr32 y 19) ^^^ (y >>> 10)
  w32 (w.getD (n - 16) 0 + s0 + w.getD (n - 7) 0 + s1)

/-- The 64-word SHA-256 schedule of one block. -/
def shaSchedule (w16 : List Nat) : List Nat :=
  (List.range 48).foldl (fun w _ => w ++ [shaNextW w]) w16

/-- One SHA-256 compression round. -/
def shaRound (st : List Nat) (kw : Nat) : List Nat :=
  match st with
  | [a, b, c, d, e, f, g, h] =>
    let s1 := (rotr32 e 6) ^^^ (rotr32 e 11) ^^^ (rotr32 e 25)
    let ch := (e &&& f) ^^^ ((not32 e) &&& g)
    let temp1 := w32 (h + s1 + ch + kw)
    let s0 := (rotr32 a 2) ^^^ (rotr32 a 13) ^^^ (rotr32 a 22)
    let maj := (a &&& b) ^^^ (a &&& c) ^^^ (b &&& c)
    let temp2 := w32 (s0 + maj)
    [w32 (temp1 + temp2), a, b, c, w32 (d + temp1), e, f, g]
  | _ => st

/-- SHA-256 compression of one 64-byte block. -/
def shaCompress (H : List Nat) (block : List Nat) : List Nat :=
  let W := shaSchedule (bytesToWordsBE block)
  let final := (W.zip shaK).foldl (fun st p => shaRound st (w32 (p.1 + p.2))) H
  List.zipWith (fun x y => w32 (x + y)) H final

/-- Hex character for a nibble. -/
def hexChar (n : Nat) : Char := "0123456789abcdef".toList.getD n '0'

/-- Big-endian hex rendering of a 32-bit word. -/
def wordHexBE (w : Nat) : List Char :=
  (List.range 8).map (fun i => hexChar ((w >>> (4 * (7 - i))) % 16))

/-- Little-endian (byte-reversed) hex rendering of a 32-bit word. -/
def wordHexLE (w : Nat) : List Char :=
  ((List.range 4).map (fun i =>
    [hexChar (((w >>> (8 * i)) % 256) / 16), hexChar ((w >>> (8 * i)) % 16)])).flatten

/-- `hashlib.sha256(msg).hexdigest()` over a byte sequence. -/
def sha256hex (msg : List Nat) : Str :=
  let padded := padMessage true msg
  let H := (chunks64 (padded.length + 1) padded).foldl shaCompress shaH0
  (H.map wordHexBE).flatten

/-- MD5 round constants `floor(abs(sin(i+1)) * 2^32)`. -/
def md5K : List Nat :=
  [3614090360, 3905402710, 606105819, 3250441966, 4118548399, 1200080426,
   2821735955, 4249261313, 1770035416, 2336552879, 4294925233, 2304563134,
   1804603682, 4254626195, 2792965006, 1236535329, 4129170786, 3225465664,
   643717713, 3921069994, 3593408605, 38016083, 3634488961, 3889429448,
   568446438, 3275163606, 4107603335, 1163531501, 2850285829, 4243563512,
   1735328473, 2368359562, 4294588738, 2272392833, 1839030562, 4259657740,
   2763975236, 1272893353, 4139469664, 3200236656, 681279174, 3936430074,
   3572445317, 76029189, 3654602809, 3873151461, 530742520, 3299628645,
   4096336452, 1126891415, 2878612391, 4237533241, 1700485571, 2399980690,
   4293915773, 2240044497, 1873313359, 4264355552, 2734768916, 1309151649,
   4149444226, 3174756917, 718787259, 3951481745]

/-- MD5 per-round shift amounts. -/
def md5S (i : Nat) : Nat :=
  if i < 16 then [7, 12, 17, 22].getD (i % 4) 0
  else if i < 32 then [5, 9, 14, 20].getD (i % 4) 0
  else if i < 48 then [4, 11, 16, 23].getD (i % 4) 0
  else [6, 10, 15, 21].getD (i % 4) 0

/-- One MD5 round on state `[A, B, C, D]`. -/
def md5Round (M : List Nat) (st : List Nat) (i : Nat) : List Nat :=
  match st with
  | [A, B, C, D] =>
    let F :=
      if i < 16 then (B &&& C) ||| ((not32 B) &&& D)
      else if i < 32 then (D &&& B) ||| ((not32 D) &&& C)
      else if i < 48 then B ^^^ C ^^^ D
      else C ^^^ (B ||| (not32 D))
    let g :=
      if i < 16 then i
      else if i < 32 then (5 * i + 1) % 16
      else if i < 48 then (3 * i + 5) % 16
      else (7 * i) % 16
    let Fv := w32 (F + A + md5K.getD i 0 + M.getD g 0)
    [D, w32 (B + rotl32 Fv (md5S i)), B, C]
  | _ => st

/-- MD5 compression of one 64-byte block. -/
def md5Compress (st : List Nat) (block : List Nat) : List Nat :=
  let M := bytesToWordsLE block
  let final := (List.range 64).foldl (md5Round M) st
  List.zipWith (fun x y => w32 (x + y)) st final

/-- `hashlib.md5(msg).hexdigest()` over a byte sequence. -/
def md5hex (msg : List Nat) : Str :=
  let padded := padMessage false msg
  let st := (chunks64 (padded.length + 1) padded).foldl md5Compress
    [1732584193, 4023233417, 2562383102, 271733878]
  (st.map wordHexLE).flatten

/-- Character-by-character rebuild shared by the card and phone masks:
digits are replaced in order by the precomputed masked digit string,
non-digits are kept in place. -/
def fillDigits : Str → Str → Str
  | [], _ => []
  | c :: rest, md =>
    if c.isDigit then
      match md with
      | m :: mrest => m :: fillDigits rest mrest
      | [] => []
    else c :: fillDigits rest md

/-- `mask_credit_card_enhanced`. -/
def mask_credit_card_enhanced (cc : Str) : Str :=
  let digits := cc.filter Char.isDigit
  if digits.length < 13 then cc
  else
    let masked_digits :=
      List.replicate (digits.length - 4) 'X' ++ digits.drop (digits.length - 4)
    fillDigits cc masked_digits

/-- `mask_phone_enhanced`. -/
def mask_phone_enhanced (phone : Str) : Str :=
  let digits := phone.filter Char.isDigit
  if digits.length < 10 then phone
  else
    let masked :=
      List.replicate (digits.length - 4) 'X' ++ digits.drop (digits.length - 4)
    fillDigits phone masked

/-- `anonymize_bank_account`. -/
def anonymize_bank_account (account : Str) : Str :=
  "ACCT_".toList ++ ((sha256hex (utf8Encode account)).take 12).map Char.toUpper

/-- `anonymize_ifsc`. -/
def anonymize_ifsc (ifsc : Str) : Str :=
  ifsc.take 4 ++ ['0'] ++ ((md5hex (utf8Encode ifsc)).take 6).map Char.toUpper

/-- `mask_aadhaar`. -/
def mask_aadhaar (a : Str) : Str :=
  let digits := a.filter Char.isDigit
  if digits.length ≠ 12 then a
  else
    let masked := digits.take 4 ++ "XXXX".toList ++ digits.drop 8
    if ' ' ∈ a then
      masked.take 4 ++ [' '] ++ (masked.drop 4).take 4 ++ [' '] ++ masked.drop 8
    else masked

/-- `anonymize_pan`. -/
def anonymize_pan (pan : Str) : Str :=
  "PAN_".toList ++ ((sha256hex (utf8Encode pan)).take 10).map Char.toUpper

/-- `pseudo_email`: keep the domain after the first `@`; with no `@`,
the tuple unpacking raises `ValueError` and the handler returns the
bare placeholder. -/
def pseudo_email (email : Str) : Str :=
  match email.findIdx? (fun c => c == '@') with
  | some i => "xxxx@".toList ++ email.drop (i + 1)
  | none => "xxxx@".toList

/-- `mask_voter_id`. -/
def mask_voter_id (vid : Str) : Str :=
  vid.take 3 ++ List.replicate 4 'X' ++ vid.drop (vid.length - 3)

/-- `mask_driving_license`. -/
def mask_driving_license (dl : Str) : Str :=
  let parts := pySplit '/' dl
  if parts.length == 3 then parts.getD 0 [] ++ "/XXXXXX/".toList ++ parts.getD 2 []
  else dl

/-- `mask_ip`. -/
def mask_ip (ip : Str) : Str :=
  let parts := pySplit '.' ip
  List.intercalate ['.'] (parts.take 2 ++ [['X'], ['X']])

/-- `mask_dob`. -/
def mask_dob (dob : Str) : Str :=
  "XX/XX/".toList ++ (pySplit '/' dob).getLastD []

/-- `anonymize_medical_id`. -/
def anonymize_medical_id (mid : Str) : Str :=
  "MED".toList ++ ((sha256hex (utf8Encode mid)).take 8).map Char.toUpper

/-- The `ENHANCED_DEIDENTIFY` dict as a dispatch on the type tag; the
engine only ever looks up the twelve registered keys. -/
def ENHANCED_DEIDENTIFY (pii_type : String) : Str → Str :=
  if pii_type == "credit_card" then mask_credit_card_enhanced
  else if pii_type == "aadhaar" then mask_aadhaar
  else if pii_type == "pan" then anonymize_pan
  else if pii_type == "email" then pseudo_email
  else if pii_type == "phone" then mask_phone_enhanced
  else if pii_type == "ifsc" then anonymize_ifsc
  else if pii_type == "bank_account" then anonymize_bank_account
  else if pii_type == "voter_id" then mask_voter_id
  else if pii_type == "driving_license" then mask_driving_license
  else if pii_type == "ip_address" then mask_ip
  else if pii_type == "dob" then mask_dob
  else if pii_type == "medical_id" then anonymize_medical_id
  else fun raw => raw
/-!
## Detector, redaction engine and processor (`pii_redactor.py` lines 233-697)

The `EnhancedProcessor`'s mutable `det_counts` / `confidence_stats`
(`Counter` and `defaultdict(list)` attributes initialised in
`__init__`) are threaded explicitly as `ProcState`; a freshly
constructed processor corresponds to `initState`.
-/

/-- The dataclass `EnhancedDetection`. -/
structure EnhancedDetection where
  row_index : Int
  column_name : String
  pii_type : String
  raw_value : Str
  masked_value : Str
  start : Nat
  stop : Nat
  confidence : ℚ
  context : Str
deriving DecidableEq, Repr

/-- The context keywords of the bank-account confidence branch. -/
def bankKeywords : List Str :=
  ["account".toList, "bank".toList, "acc".toList, "a/c".toList]

/-- `EnhancedPiiDetector._calculate_confidence`: the if-chain over the
type tag; types without a branch (pan, email) fall through to
`base_confidence = 1.0`. -/
def _calculate_confidence (pii_type : String) (match_text context : Str) : ℚ :=
  if pii_type == "credit_card" then
    if luhn_check match_text then mkRat 95 100 else mkRat 3 10
  else if pii_type == "aadhaar" then
    let digits := match_text.filter Char.isDigit
    if digits.length == 12 && verhoeff_validate digits then mkRat 95 100
    else if digits.length == 12 then mkRat 7 10
    else mkRat 3 10
  else if pii_type == "phone" then
    if validate_indian_phone match_text then mkRat 9 10 else mkRat 4 10
  else if pii_type == "ifsc" then
    if validate_ifsc match_text then mkRat 95 100 else mkRat 5 10
  else if pii_type == "bank_account" then
    let digits := match_text.filter Char.isDigit
    if 9 ≤ digits.length && digits.length ≤ 18 then
      if bankKeywords.any (fun kw => containsSub kw (context.map Char.toLower)) then mkRat 8 10
      else mkRat 6 10
    else mkRat 3 10
  else if pii_type == "voter_id" then
    if validate_voter_id match_text then mkRat 9 10 else mkRat 4 10
  else if pii_type == "driving_license" then
    if validate_driving_license match_text then mkRat 9 10 else mkRat 4 10
  else if pii_type == "ip_address" then
    -- A `none` from `validate_ip` would be a `ValueError` escaping the
    -- scorer; it cannot happen here because every candidate the
    -- ip_address pattern produces is ASCII digits and dots, on which
    -- `validate_ip` always returns a boolean (`ip_candidate_validate_isSome`
    -- below), so the branch chosen for `none` is unreachable.
    match validate_ip match_text with
    | some true => mkRat 95 100
    | some false => mkRat 5 10
    | none => mkRat 5 10
  else if pii_type == "dob" then
    if validate_dob match_text then mkRat 8 10 else mkRat 3 10
  else if pii_type == "medical_id" then
    if validate_medical_id match_text then mkRat 7 10 else mkRat 3 10
  else 1

/-- `EnhancedPiiDetector.find_all_enhanced`: every pattern is scanned
over the whole text; a candidate is kept exactly when its confidence
meets the threshold. -/
def find_all_enhanced (confidence_threshold : ℚ) (text context : Str) :
    List (String × PyMatch × ℚ) :=
  ENHANCED_PII_PATTERNS.flatMap (fun pt =>
    (finditer pt.2 text).filterMap (fun m =>
      let confidence := _calculate_confidence pt.1 (pySlice text m.start m.stop) context
      if confidence_threshold ≤ confidence then some (pt.1, m, confidence) else none))

/-- The processor's running counters (`self.det_counts`,
`self.confidence_stats`), as insertion-ordered association lists — the
iteration order of `Counter` and `defaultdict`. -/
structure ProcState where
  det_counts : List (String × Nat)
  confidence_stats : List (String × List ℚ)
deriving DecidableEq, Repr

/-- The state of a freshly constructed `EnhancedProcessor`. -/
def initState : ProcState := ⟨[], []⟩

/-- `self.det_counts[pii_type] += 1` on a `Counter`. -/
def counterIncr (k : String) : List (String × Nat) → List (String × Nat)
  | [] => [(k, 1)]
  | p :: rest => if p.1 == k then (p.1, p.2 + 1) :: rest else p :: counterIncr k rest

/-- `self.confidence_stats[pii_type].append(confidence)` on a
`defaultdict(list)`. -/
def statsAppend (k : String) (q : ℚ) : List (String × List ℚ) → List (String × List ℚ)
  | [] => [(k, [q])]
  | p :: rest => if p.1 == k then (p.1, p.2 ++ [q]) :: rest else p :: statsAppend k q rest

/-- Association-list read with a default. -/
def lookupD {β : Type} (l : List (String × β)) (k : String) (d : β) : β :=
  match l.find? (fun p => p.1 == k) with
  | some p => p.2
  | none => d

/-- The ordering `key=lambda x: x[1].start(), reverse=True` used on
`all_matches`: `a` may precede `b` iff `b`'s start is not larger. -/
def descByStart (a b : String × PyMatch × ℚ) : Prop :=
  b.2.1.start ≤ a.2.1.start

instance : DecidableRel descByStart := fun _ b => Nat.decLe b.2.1.start _

instance : IsTotal (String × PyMatch × ℚ) descByStart :=
  ⟨fun a b => Nat.le_total b.2.1.start a.2.1.start⟩

instance : IsTrans (String × PyMatch × ℚ) descByStart :=
  ⟨fun _ _ _ hab hbc => Nat.le_trans hbc hab⟩

/-- `all_matches.sort(key=lambda x: x[1].start(), reverse=True)`:
Python's sort is stable, so any stable sort by the same key (here,
insertion sort) produces the same list. -/
def appliedMatches (thr : ℚ) (text context : Str) : List (String × PyMatch × ℚ) :=
  List.insertionSort descByStart (find_all_enhanced thr text context)

/-- Construction of one `EnhancedDetection` inside the splice loop of
`_deidentify_text_enhanced`: offsets and raw value are taken from the
match against the original `text`, before the corresponding splice. -/
def mkDetection (text context : Str) (tmc : String × PyMatch × ℚ) : EnhancedDetection :=
  let raw := pySlice text tmc.2.1.start tmc.2.1.stop
  { row_index := -1, column_name := "", pii_type := tmc.1, raw_value := raw,
    masked_value := ENHANCED_DEIDENTIFY tmc.1 raw, start := tmc.2.1.start,
    stop := tmc.2.1.stop, confidence := tmc.2.2, context := context.take 100 }

/-- One iteration of the splice loop: splice the masked value into the
working text at the match's offsets, append the detection, and bump the
per-type counters. -/
def deidentifyStep (text context : Str) (acc : Str × List EnhancedDetection × ProcState)
    (tmc : String × PyMatch × ℚ) : Str × List EnhancedDetection × ProcState :=
  let d := mkDetection text context tmc
  (acc.1.take tmc.2.1.start ++ d.masked_value ++ acc.1.drop tmc.2.1.stop,
   acc.2.1 ++ [d],
   ⟨counterIncr tmc.1 acc.2.2.det_counts, statsAppend tmc.1 tmc.2.2 acc.2.2.confidence_stats⟩)

/-- `EnhancedProcessor._deidentify_text_enhanced`: returns the rewritten
text, the detections in reversed (ascending-start) order, and the
updated processor state. -/
def _deidentify_text_enhanced (thr : ℚ) (st : ProcState) (text context : Str) :
    Str × List EnhancedDetection × ProcState :=
  let all_matches := find_all_enhanced thr text context
  if all_matches.isEmpty then (text, [], st)
  else
    let r := (appliedMatches thr text context).foldl (deidentifyStep text context) (text, [], st)
    (r.1, r.2.1.reverse, r.2.2)

/-- The summary dict of `EnhancedProcessor._generate_summary` (the
timestamp and file-path fields are I/O metadata and omitted). -/
structure Summary where
  total_detections : Nat
  counts_by_type : List (String × Nat)
  unique_values_by_type : List (String × Nat)
  average_confidence_by_type : List (String × ℚ)
  estimated_precision : List (String × ℚ)
deriving DecidableEq, Repr

/-- `EnhancedProcessor._generate_summary`: all four per-type dicts are
keyed by `self.det_counts.keys()` — the processor's running counters,
not the passed detection list. -/
def _generate_summary (st : ProcState) (detections : List EnhancedDetection) : Summary :=
  { total_detections := detections.length
    counts_by_type := st.det_counts
    unique_values_by_type := st.det_counts.map (fun p =>
      (p.1, ((detections.filter (fun d => d.pii_type == p.1)).map
        (fun d => d.raw_value)).dedup.length))
    average_confidence_by_type := st.det_counts.map (fun p =>
      let l := lookupD st.confidence_stats p.1 []
      (p.1, if !l.isEmpty then l.sum / (l.length : ℚ) else 0))
    estimated_precision := st.det_counts.map (fun p =>
      let l := lookupD st.confidence_stats p.1 []
      (p.1, max (mkRat 5 10) (if !l.isEmpty then ((l.countP (fun c => mkRat 8 10 < c)) : ℚ) / (l.length : ℚ)
        else 0))) }

/-- `EnhancedProcessor.process_txt_enhanced` (its pure core): the whole
file content is one field whose context is the text itself; detections
get `row_index = 1` and `column_name = "text"`. -/
def process_txt_enhanced (thr : ℚ) (st : ProcState) (text : Str) :
    Str × List EnhancedDetection × Summary × ProcState :=
  let r := _deidentify_text_enhanced thr st text text
  let dets := r.2.1.map (fun d => { d with row_index := 1, column_name := "text" })
  (r.1, dets, _generate_summary r.2.2 dets, r.2.2)

/-!
## The record-list adapter (`process_json_enhanced`, lines 489-550)
-/

/-- Parsed JSON documents as `json.load` hands them over. -/
inductive JVal where
  | str (s : Str)
  | num (n : Int)
  | bool (b : Bool)
  | null
  | arr (items : List JVal)
  | obj (fields : List (String × JVal))

/-- Python `str(n)` for an integer. -/
def intToStr : Int → Str
  | .ofNat n => Nat.toDigits 10 n
  | .negSucc m => '-' :: Nat.toDigits 10 (m + 1)

/-- The single-quote character used by Python `repr` of strings. -/
def pyQuote : Char := Char.ofNat 39

/-- Opening brace of a dict repr. -/
def obr : Char := Char.ofNat 123

/-- Closing brace of a dict repr. -/
def cbr : Char := Char.ofNat 125

mutual
/-- Python `repr` of a JSON-parsed value (string escaping elided). -/
def pyReprJ : JVal → Str
  | .str s => pyQuote :: s ++ [pyQuote]
  | .num n => intToStr n
  | .bool b => if b then "True".toList else "False".toList
  | .null => "None".toList
  | .arr items => '[' :: reprItems items ++ [']']
  | .obj fields => obr :: reprFields fields ++ [cbr]

/-- Comma-joined reprs of list items. -/
def reprItems : List JVal → Str
  | [] => []
  | [x] => pyReprJ x
  | x :: xs => pyReprJ x ++ ", ".toList ++ reprItems xs

/-- Comma-joined `key: value` reprs of dict fields. -/
def reprFields : List (String × JVal) → Str
  | [] => []
  | [kv] => pyQuote :: kv.1.toList ++ [pyQuote] ++ ": ".toList ++ pyReprJ kv.2
  | kv :: xs =>
    pyQuote :: kv.1.toList ++ [pyQuote] ++ ": ".toList ++ pyReprJ kv.2 ++ ", ".toList ++ reprFields xs
end

/-- Python `str` of a JSON-parsed value. -/
def pyStrJ : JVal → Str
  | .str s => s
  | v => pyReprJ v

/-- Whether a parsed value is a dict (`isinstance(item, dict)`). -/
def JVal.isObj : JVal → Bool
  | .obj _ => true
  | _ => false

/-- Field list of a dict value. -/
def JVal.objFields : JVal → List (String × JVal)
  | .obj fs => fs
  | _ => []

/-- The `ValueError` message of the record-list adapter. -/
def jsonErrMsg : String := "JSON must be a list of dictionaries"

/-- Processing of one `key, value` pair of a record: stringify the
value, run the redaction engine on it, tag the detections with the
record index and key. -/
def processRecordField (thr : ℚ) (r_i : Nat) (context : Str)
    (acc : List (String × Str) × List EnhancedDetection × ProcState)
    (kv : String × JVal) : List (String × Str) × List EnhancedDetection × ProcState :=
  let cell := match kv.2 with
    | JVal.null => []
    | v => pyStrJ v
  let r := _deidentify_text_enhanced thr acc.2.2 cell context
  let dets := r.2.1.map (fun d => { d with row_index := (r_i : Int), column_name := kv.1 })
  (acc.1 ++ [(kv.1, r.1)], acc.2.1 ++ dets, r.2.2)

/-- Processing of one record: the record's context is its
space-joined `key:value` rendering. -/
def processRecord (thr : ℚ)
    (acc : List (List (String × Str)) × List EnhancedDetection × ProcState)
    (ir : Nat × JVal) : List (List (String × Str)) × List EnhancedDetection × ProcState :=
  let fields := ir.2.objFields
  let context :=
    List.intercalate [' '] (fields.map (fun kv => kv.1.toList ++ ':' :: pyStrJ kv.2))
  let r := fields.foldl (processRecordField thr (ir.1 + 1) context) ([], acc.2.1, acc.2.2)
  (acc.1 ++ [r.1], r.2.1, r.2.2)

/-- `EnhancedProcessor.process_json_enhanced` (its pure core): raises
`ValueError` — modelled as `Except.error` — exactly when the parsed
document is not a list of dicts, and otherwise traverses every record
field through the redaction engine. -/
def process_json_enhanced (thr : ℚ) (st : ProcState) (data : JVal) :
    Except String
      (List (List (String × Str)) × List EnhancedDetection × Summary × ProcState) :=
  match data with
  | JVal.arr items =>
    if items.all JVal.isObj then
      let r := items.enum.foldl (processRecord thr) ([], [], st)
      Except.ok (r.1, r.2.1, _generate_summary r.2.2 r.2.1, r.2.2)
    else Except.error jsonErrMsg
  | _ => Except.error jsonErrMsg
/-!
## Specification-side definitions

These definitions transcribe the wording of spec/claim sentences (not
the code); the theorems below compare them against the embedded source
definitions.
-/

/-- Claim-side Luhn digit extraction: "after stripping all non-digit
separators". -/
def luhnSpecDigits (s : Str) : List Nat := (s.filter Char.isDigit).map dval

/-- Claim-side Luhn sum, "doubling every second digit from the right,
subtracting 9 from any doubled digit greater than 9, and summing": the
input is the digit list rightmost first, `b` tells whether the next
digit is a doubled one. -/
def luhnSumFrom (b : Bool) : List Nat → Nat
  | [] => 0
  | d :: rest => (if b then luhnDouble d else d) + luhnSumFrom (!b) rest

/-- Claim-side IP predicate: "exactly 4 dot-separated octets, each a
number between 0 and 255" (an octet is a nonempty decimal numeral). -/
def ip4Spec (s : Str) : Bool :=
  let parts := pySplit '.' s
  parts.length == 4 &&
    parts.all (fun p => !p.isEmpty && p.all Char.isDigit && digitsToNat p ≤ 255)

/-- Claim-level format preservation (C3's wording): every non-digit
character of the original is present unchanged at its original position
in the masked value, and the number of digit characters is unchanged. -/
def formatPreservedClaim (raw masked : Str) : Bool :=
  (List.range raw.length).all (fun i =>
    (raw.getD i ' ').isDigit ||
      (decide (i < masked.length) && (masked.getD i ' ' == raw.getD i ' '))) &&
  masked.countP Char.isDigit == raw.countP Char.isDigit

/-- Positional shape preservation actually guaranteed by the digit
maskers: same length, non-digit characters kept in place, and every
digit position holding either a digit or the filler `X`. -/
def shapePreserved : Str → Str → Bool
  | [], [] => true
  | c :: cs, m :: ms =>
    (if c.isDigit then (m.isDigit || m == 'X') else m == c) && shapePreserved cs ms
  | _, _ => false

/-- The validation actually performed by `process_json_enhanced`:
`isinstance(data, list) and all(isinstance(item, dict) for item in data)`. -/
def isListOfDicts : JVal → Bool
  | JVal.arr items => items.all JVal.isObj
  | _ => false

/-- Whether a parsed value is a scalar (not a nested array or object). -/
def isScalarJ : JVal → Bool
  | JVal.arr _ => false
  | JVal.obj _ => false
  | _ => true

/-- Claim-side input condition of C7: "exactly an array of flat
associative records (values themselves scalar, not nested
structures)". -/
def isFlatRecordArray : JVal → Bool
  | JVal.arr items =>
    items.all (fun it => it.isObj && it.objFields.all (fun kv => isScalarJ kv.2))
  | _ => false

/-- Whether an `Except` result is a success. -/
def exceptOk {ε α : Type} : Except ε α → Bool
  | .ok _ => true
  | .error _ => false

/-- Key of a detection compared in the C1 correspondence: type tag,
original-text offsets, raw value and confidence. -/
def detKey (d : EnhancedDetection) : String × Nat × Nat × Str × ℚ :=
  (d.pii_type, d.start, d.stop, d.raw_value, d.confidence)

/-- The same key computed from a detector result. -/
def matchKey (text : Str) (x : String × PyMatch × ℚ) : String × Nat × Nat × Str × ℚ :=
  (x.1, x.2.1.start, x.2.1.stop, pySlice text x.2.1.start x.2.1.stop, x.2.2)
/-!
## Helper lemmas
-/

theorem mkDetection_pii_type (text context : Str) (x : String × PyMatch × ℚ) :
    (mkDetection text context x).pii_type = x.1 := rfl

theorem mkDetection_start (text context : Str) (x : String × PyMatch × ℚ) :
    (mkDetection text context x).start = x.2.1.start := rfl

theorem mkDetection_confidence (text context : Str) (x : String × PyMatch × ℚ) :
    (mkDetection text context x).confidence = x.2.2 := rfl

theorem detKey_mkDetection (text context : Str) (x : String × PyMatch × ℚ) :
    detKey (mkDetection text context x) = matchKey text x := rfl

theorem deidentify_foldl_dets (text context : Str) (l : List (String × PyMatch × ℚ))
    (acc : Str × List EnhancedDetection × ProcState) :
    (l.foldl (deidentifyStep text context) acc).2.1
      = acc.2.1 ++ l.map (mkDetection text context) := by
  induction l generalizing acc with
  | nil => simp
  | cons x xs ih => simp [ih, deidentifyStep, List.append_assoc]

theorem lookupD_counterIncr (k t : String) (m : List (String × Nat)) :
    lookupD (counterIncr k m) t 0
      = lookupD m t 0 + (if k = t then 1 else 0) := by
  induction m with
  | nil =>
    by_cases h : k = t
    · simp [counterIncr, lookupD, List.find?, beq_iff_eq.mpr h, h]
    · simp [counterIncr, lookupD, List.find?, beq_eq_false_iff_ne.mpr h, h]
  | cons p rest ih =>
    by_cases h1 : p.1 = k
    · by_cases h2 : k = t
      · have ht : p.1 = t := h1.trans h2
        simp [counterIncr, lookupD, List.find?, beq_iff_eq.mpr h1,
          beq_iff_eq.mpr ht, h2]
      · have ht : ¬ p.1 = t := fun hp => h2 (h1.symm.trans hp)
        simp [counterIncr, lookupD, List.find?, beq_iff_eq.mpr h1,
          beq_eq_false_iff_ne.mpr ht, h2]
    · by_cases h2 : p.1 = t
      · have h3 : ¬ k = t := fun hkt => h1 (h2.trans hkt.symm)
        simp [counterIncr, lookupD, List.find?, beq_eq_false_iff_ne.mpr h1,
          beq_iff_eq.mpr h2, h3]
      · simpa [counterIncr, lookupD, List.find?, beq_eq_false_iff_ne.mpr h1,
          beq_eq_false_iff_ne.mpr h2] using ih

theorem deidentify_foldl_counts (text context : Str) (t : String)
    (l : List (String × PyMatch × ℚ)) (acc : Str × List EnhancedDetection × ProcState) :
    lookupD (l.foldl (deidentifyStep text context) acc).2.2.det_counts t 0
      = lookupD acc.2.2.det_counts t 0 + l.countP (fun x => x.1 == t) := by
  induction l generalizing acc with
  | nil => simp
  | cons x xs ih =>
    rw [List.foldl_cons, ih, List.countP_cons]
    have hs : (deidentifyStep text context acc x).2.2.det_counts
        = counterIncr x.1 acc.2.2.det_counts := rfl
    rw [hs, lookupD_counterIncr]
    by_cases h : x.1 = t <;> simp [beq_iff_eq, h] <;> omega
theorem appliedMatches_perm (thr : ℚ) (text context : Str) :
    List.Perm (appliedMatches thr text context) (find_all_enhanced thr text context) :=
  List.perm_insertionSort descByStart _

theorem appliedMatches_sorted (thr : ℚ) (text context : Str) :
    List.Pairwise descByStart (appliedMatches thr text context) :=
  List.sorted_insertionSort descByStart _

theorem deidentify_dets_eq (thr : ℚ) (st : ProcState) (text context : Str) :
    (_deidentify_text_enhanced thr st text context).2.1
      = ((appliedMatches thr text context).map (mkDetection text context)).reverse := by
  unfold _deidentify_text_enhanced
  by_cases h : (find_all_enhanced thr text context).isEmpty
  · have hnil : find_all_enhanced thr text context = [] := by
      simpa [List.isEmpty_iff] using h
    simp [h, appliedMatches, hnil]
  · simp only [h, if_false, Bool.false_eq_true]
    rw [deidentify_foldl_dets]
    simp

theorem deidentify_counts (thr : ℚ) (st : ProcState) (text context : Str) (t : String) :
    lookupD (_deidentify_text_enhanced thr st text context).2.2.det_counts t 0
      = lookupD st.det_counts t 0
        + (find_all_enhanced thr text context).countP (fun x => x.1 == t) := by
  unfold _deidentify_text_enhanced
  by_cases h : (find_all_enhanced thr text context).isEmpty
  · have hnil : find_all_enhanced thr text context = [] := by
      simpa [List.isEmpty_iff] using h
    simp [h, hnil]
  · simp only [h, if_false, Bool.false_eq_true]
    rw [deidentify_foldl_counts]
    have hp : (appliedMatches thr text context).countP (fun x => x.1 == t)
        = (find_all_enhanced thr text context).countP (fun x => x.1 == t) :=
      (appliedMatches_perm thr text context).countP_eq _
    simp [hp]

theorem deidentify_text_of_no_matches (thr : ℚ) (st : ProcState) (text context : Str)
    (h : find_all_enhanced thr text context = []) :
    (_deidentify_text_enhanced thr st text context).1 = text := by
  unfold _deidentify_text_enhanced
  simp [h]

theorem mem_find_all_threshold (thr : ℚ) (text context : Str)
    (x : String × PyMatch × ℚ) (hx : x ∈ find_all_enhanced thr text context) :
    thr ≤ x.2.2 := by
  simp only [find_all_enhanced, List.mem_flatMap, List.mem_filterMap] at hx
  obtain ⟨pt, -, m, -, hsome⟩ := hx
  by_cases h : thr ≤ _calculate_confidence pt.1 (pySlice text m.start m.stop) context
  · simp only [h, if_true] at hsome
    cases hsome
    exact h
  · simp [h] at hsome

theorem mem_dets_of_mem_find_all (thr : ℚ) (st : ProcState) (text context : Str)
    (x : String × PyMatch × ℚ) (hx : x ∈ find_all_enhanced thr text context) :
    mkDetection text context x ∈ (_deidentify_text_enhanced thr st text context).2.1 := by
  rw [deidentify_dets_eq]
  rw [List.mem_reverse]
  exact List.mem_map_of_mem _ (((appliedMatches_perm thr text context).mem_iff).mpr hx)

theorem mem_find_all_of_mem_dets (thr : ℚ) (st : ProcState) (text context : Str)
    (d : EnhancedDetection) (hd : d ∈ (_deidentify_text_enhanced thr st text context).2.1) :
    ∃ x ∈ find_all_enhanced thr text context, d = mkDetection text context x := by
  rw [deidentify_dets_eq, List.mem_reverse, List.mem_map] at hd
  obtain ⟨x, hx, hxd⟩ := hd
  exact ⟨x, ((appliedMatches_perm thr text context).mem_iff).mp hx, hxd.symm⟩

theorem dets_length_eq (thr : ℚ) (st : ProcState) (text context : Str) :
    (_deidentify_text_enhanced thr st text context).2.1.length
      = (find_all_enhanced thr text context).length := by
  rw [deidentify_dets_eq]
  simp [(appliedMatches_perm thr text context).length_eq]

theorem dets_sorted_ascending (thr : ℚ) (st : ProcState) (text context : Str) :
    List.Pairwise (fun d e : EnhancedDetection => d.start ≤ e.start)
      (_deidentify_text_enhanced thr st text context).2.1 := by
  rw [deidentify_dets_eq]
  rw [List.pairwise_reverse]
  exact (appliedMatches_sorted thr text context).map _
    (fun a b hab => by
      simpa [mkDetection_start] using hab)
theorem filterMap_threshold_mono {α : Type} (t1 t2 : ℚ) (h : t1 ≤ t2)
    (F : PyMatch → ℚ) (G : PyMatch → ℚ → α) (l : List PyMatch) :
    (l.filterMap (fun m => if t2 ≤ F m then some (G m (F m)) else none)).length ≤
    (l.filterMap (fun m => if t1 ≤ F m then some (G m (F m)) else none)).length := by
  induction l with
  | nil => simp
  | cons m rest ih =>
    by_cases h2 : t2 ≤ F m
    · have h1 : t1 ≤ F m := le_trans h h2
      simpa [List.filterMap_cons, h1, h2] using ih
    · by_cases h1 : t1 ≤ F m
      · simp only [List.filterMap_cons, h1, h2, if_true, if_false, List.length_cons]
        exact le_trans ih (Nat.le_succ _)
      · simpa [List.filterMap_cons, h1, h2] using ih

theorem find_all_patterns_mono (text context : Str) (t1 t2 : ℚ) (h : t1 ≤ t2) :
    ∀ pats : List (String × (Str → Nat → Option Nat)),
      (pats.flatMap (fun pt => (finditer pt.2 text).filterMap (fun m =>
        let confidence := _calculate_confidence pt.1 (pySlice text m.start m.stop) context
        if t2 ≤ confidence then some (pt.1, m, confidence) else none))).length ≤
      (pats.flatMap (fun pt => (finditer pt.2 text).filterMap (fun m =>
        let confidence := _calculate_confidence pt.1 (pySlice text m.start m.stop) context
        if t1 ≤ confidence then some (pt.1, m, confidence) else none))).length := by
  intro pats
  induction pats with
  | nil => simp
  | cons pt rest ih =>
    simp only [List.flatMap_cons, List.length_append]
    exact Nat.add_le_add
      (filterMap_threshold_mono t1 t2 h
        (fun m => _calculate_confidence pt.1 (pySlice text m.start m.stop) context)
        (fun m c => (pt.1, m, c)) _) ih

theorem find_all_mono (text context : Str) (t1 t2 : ℚ) (h : t1 ≤ t2) :
    (find_all_enhanced t2 text context).length
      ≤ (find_all_enhanced t1 text context).length :=
  find_all_patterns_mono text context t1 t2 h ENHANCED_PII_PATTERNS

theorem luhn_foldl_eq (l : List Nat) (a : Nat) (b : Bool) :
    (l.foldl (fun (acc : Nat × Bool) d =>
        (acc.1 + (if acc.2 then luhnDouble d else d), !acc.2)) (a, b)).1
      = a + luhnSumFrom b l := by
  induction l generalizing a b with
  | nil => simp [luhnSumFrom]
  | cons d rest ih => simp [luhnSumFrom, ih, Nat.add_assoc]

theorem conf_pan (mt ctx : Str) : _calculate_confidence "pan" mt ctx = 1 := rfl

theorem conf_email (mt ctx : Str) : _calculate_confidence "email" mt ctx = 1 := rfl

theorem pan_match_in_find_all (thr : ℚ) (text context : Str) (h : thr ≤ 1)
    (m : PyMatch) (hm : m ∈ finditer panMatchAt text) :
    ("pan", m, (1 : ℚ)) ∈ find_all_enhanced thr text context := by
  unfold find_all_enhanced
  rw [List.mem_flatMap]
  refine ⟨("pan", panMatchAt), by simp [ENHANCED_PII_PATTERNS], ?_⟩
  rw [List.mem_filterMap]
  refine ⟨m, hm, ?_⟩
  have hc : _calculate_confidence "pan" (pySlice text m.start m.stop) context = 1 := rfl
  simp only [hc, h, if_true]

theorem email_match_in_find_all (thr : ℚ) (text context : Str) (h : thr ≤ 1)
    (m : PyMatch) (hm : m ∈ finditer emailMatchAt text) :
    ("email", m, (1 : ℚ)) ∈ find_all_enhanced thr text context := by
  unfold find_all_enhanced
  rw [List.mem_flatMap]
  refine ⟨("email", emailMatchAt), by simp [ENHANCED_PII_PATTERNS], ?_⟩
  rw [List.mem_filterMap]
  refine ⟨m, hm, ?_⟩
  have hc : _calculate_confidence "email" (pySlice text m.start m.stop) context = 1 := rfl
  simp only [hc, h, if_true]

theorem dets_filter_length (thr : ℚ) (st : ProcState) (text context : Str) (t : String) :
    ((_deidentify_text_enhanced thr st text context).2.1.filter
        (fun d => d.pii_type == t)).length
      = (find_all_enhanced thr text context).countP (fun x => x.1 == t) := by
  rw [deidentify_dets_eq, ← List.countP_eq_length_filter, List.countP_reverse,
    List.countP_map]
  exact (appliedMatches_perm thr text context).countP_eq _
theorem shapePreserved_refl (s : Str) : shapePreserved s s = true := by
  induction s with
  | nil => rfl
  | cons c cs ih => by_cases h : c.isDigit <;> simp [shapePreserved, h, ih]

theorem shapePreserved_append {a b c d : Str} (hab : shapePreserved a b = true)
    (hcd : shapePreserved c d = true) : shapePreserved (a ++ c) (b ++ d) = true := by
  induction a generalizing b with
  | nil =>
    cases b with
    | nil => simpa using hcd
    | cons y ys => simp [shapePreserved] at hab
  | cons x xs ih =>
    cases b with
    | nil => simp [shapePreserved] at hab
    | cons y ys =>
      simp only [shapePreserved, Bool.and_eq_true] at hab
      simpa [shapePreserved, hab.1] using ih hab.2

theorem shapePreserved_cons_same (c : Char) {a b : Str} (h : shapePreserved a b = true) :
    shapePreserved (c :: a) (c :: b) = true := by
  by_cases hc : c.isDigit <;> simp [shapePreserved, hc, h]

theorem shapePreserved_digits_X {g : Str} (hg : ∀ c ∈ g, c.isDigit = true) :
    shapePreserved g (List.replicate g.length 'X') = true := by
  induction g with
  | nil => rfl
  | cons c cs ih =>
    simp [shapePreserved, hg c (List.mem_cons_self c cs),
      ih (fun x hx => hg x (List.mem_cons_of_mem c hx))]

theorem fillDigits_shape (cs : Str) :
    ∀ md : Str, md.length = (cs.filter Char.isDigit).length →
      (∀ m ∈ md, m.isDigit = true ∨ m = 'X') →
      shapePreserved cs (fillDigits cs md) = true := by
  induction cs with
  | nil => intro md _ _; rfl
  | cons c rest ih =>
    intro md hlen hmem
    by_cases h : c.isDigit
    · cases md with
      | nil => simp [List.filter_cons, h] at hlen
      | cons m mrest =>
        have hm := hmem m (List.mem_cons_self m mrest)
        have hshape : (if c.isDigit then (m.isDigit || m == 'X') else m == c) = true := by
          rcases hm with hd | hx
          · simp [h, hd]
          · simp [h, hx]
        simp only [fillDigits, h, if_true]
        simp only [shapePreserved, hshape, Bool.true_and]
        apply ih mrest
        · simpa [List.filter_cons, h] using hlen
        · exact fun x hx => hmem x (List.mem_cons_of_mem m hx)
    · simp only [fillDigits, h, if_false, Bool.false_eq_true]
      have hshape : (if c.isDigit then (c.isDigit || c == 'X') else c == c) = true := by
        simp [h]
      simp only [shapePreserved, hshape, Bool.true_and]
      apply ih md
      · simpa [List.filter_cons, h] using hlen
      · exact hmem

theorem mask_credit_card_shape (cc : Str) :
    shapePreserved cc (mask_credit_card_enhanced cc) = true := by
  unfold mask_credit_card_enhanced
  by_cases h : (cc.filter Char.isDigit).length < 13
  · simp [h, shapePreserved_refl]
  · simp only [h, if_false, Bool.false_eq_true]
    apply fillDigits_shape
    · simp only [List.length_append, List.length_replicate, List.length_drop]
      omega
    · intro m hm
      rcases List.mem_append.mp hm with hX | hD
      · exact Or.inr (List.eq_of_mem_replicate hX)
      · exact Or.inl (List.of_mem_filter (List.mem_of_mem_drop hD))

theorem mask_phone_shape (phone : Str) :
    shapePreserved phone (mask_phone_enhanced phone) = true := by
  unfold mask_phone_enhanced
  by_cases h : (phone.filter Char.isDigit).length < 10
  · simp [h, shapePreserved_refl]
  · simp only [h, if_false, Bool.false_eq_true]
    apply fillDigits_shape
    · simp only [List.length_append, List.length_replicate, List.length_drop]
      omega
    · intro m hm
      rcases List.mem_append.mp hm with hX | hD
      · exact Or.inr (List.eq_of_mem_replicate hX)
      · exact Or.inl (List.of_mem_filter (List.mem_of_mem_drop hD))

theorem pySplit_no_sep (sep : Char) (a : Str) (ha : sep ∉ a) :
    pySplit sep a = [a] := by
  induction a with
  | nil => rfl
  | cons c cs ih =>
    have hc : ¬ c == sep := by
      simp only [beq_iff_eq]
      intro hcs
      exact ha (hcs ▸ List.mem_cons_self c cs)
    have ih' := ih (fun hm => ha (List.mem_cons_of_mem c hm))
    simp [pySplit, hc, ih']

theorem pySplit_append_sep (sep : Char) (a : Str) (ha : sep ∉ a) (rest : Str) :
    pySplit sep (a ++ sep :: rest) = a :: pySplit sep rest := by
  induction a with
  | nil => simp [pySplit]
  | cons c cs ih =>
    have hc : ¬ c == sep := by
      simp only [beq_iff_eq]
      intro hcs
      exact ha (hcs ▸ List.mem_cons_self c cs)
    have ih' := ih (fun hm => ha (List.mem_cons_of_mem c hm))
    simp [pySplit, hc, ih']
theorem mask_aadhaar_shape_spaced (g1 g2 g3 : Str)
    (h1 : g1.length = 4) (h2 : g2.length = 4) (h3 : g3.length = 4)
    (d1 : ∀ c ∈ g1, c.isDigit = true) (d2 : ∀ c ∈ g2, c.isDigit = true)
    (d3 : ∀ c ∈ g3, c.isDigit = true) :
    shapePreserved (g1 ++ ' ' :: (g2 ++ ' ' :: g3))
      (mask_aadhaar (g1 ++ ' ' :: (g2 ++ ' ' :: g3))) = true := by
  have hfil : (g1 ++ ' ' :: (g2 ++ ' ' :: g3)).filter Char.isDigit = g1 ++ (g2 ++ g3) := by
    simp [List.filter_append, List.filter_cons,
      List.filter_eq_self.mpr d1, List.filter_eq_self.mpr d2, List.filter_eq_self.mpr d3]
  have hlen : (g1 ++ (g2 ++ g3)).length = 12 := by simp [h1, h2, h3]
  have htake : (g1 ++ (g2 ++ g3)).take 4 = g1 := List.take_left' h1
  have hdrop : (g1 ++ (g2 ++ g3)).drop 8 = g3 := by
    rw [← List.append_assoc]
    exact List.drop_left' (by simp [h1, h2])
  have hsp : ' ' ∈ g1 ++ ' ' :: (g2 ++ ' ' :: g3) := by simp
  have hX : "XXXX".toList = List.replicate g2.length 'X' := by rw [h2]; rfl
  unfold mask_aadhaar
  rw [hfil]
  simp only [hlen, htake, hdrop, hsp, if_true, if_neg (by omega : ¬ (12 : Nat) ≠ 12)]
  have e1 : (g1 ++ "XXXX".toList ++ g3).take 4 = g1 := by
    rw [List.append_assoc]
    exact List.take_left' h1
  have e2 : ((g1 ++ "XXXX".toList ++ g3).drop 4).take 4 = "XXXX".toList := by
    rw [List.append_assoc, List.drop_left' h1]
    exact List.take_left' rfl
  have e3 : (g1 ++ "XXXX".toList ++ g3).drop 8 = g3 :=
    List.drop_left' (by simp [h1])
  rw [e1, e2, e3]
  have goal2 : shapePreserved (g1 ++ ' ' :: (g2 ++ ' ' :: g3))
      (g1 ++ ' ' :: ("XXXX".toList ++ ' ' :: g3)) = true := by
    apply shapePreserved_append (shapePreserved_refl g1)
    apply shapePreserved_cons_same
    apply shapePreserved_append
    · rw [hX]; exact shapePreserved_digits_X d2
    · exact shapePreserved_cons_same _ (shapePreserved_refl g3)
  simpa using goal2

theorem mask_aadhaar_shape_plain (g1 g2 g3 : Str)
    (h1 : g1.length = 4) (h2 : g2.length = 4) (h3 : g3.length = 4)
    (d1 : ∀ c ∈ g1, c.isDigit = true) (d2 : ∀ c ∈ g2, c.isDigit = true)
    (d3 : ∀ c ∈ g3, c.isDigit = true) :
    shapePreserved (g1 ++ (g2 ++ g3)) (mask_aadhaar (g1 ++ (g2 ++ g3))) = true := by
  have hfil : (g1 ++ (g2 ++ g3)).filter Char.isDigit = g1 ++ (g2 ++ g3) :=
    List.filter_eq_self.mpr (by
      intro c hc
      rcases List.mem_append.mp hc with h | h
      · exact d1 c h
      · rcases List.mem_append.mp h with h' | h'
        · exact d2 c h'
        · exact d3 c h')
  have hlen : (g1 ++ (g2 ++ g3)).length = 12 := by simp [h1, h2, h3]
  have htake : (g1 ++ (g2 ++ g3)).take 4 = g1 := List.take_left' h1
  have hdrop : (g1 ++ (g2 ++ g3)).drop 8 = g3 := by
    rw [← List.append_assoc]
    exact List.drop_left' (by simp [h1, h2])
  have hsp : ' ' ∉ g1 ++ (g2 ++ g3) := by
    intro hm
    have : (' ' : Char).isDigit = true := by
      rcases List.mem_append.mp hm with h | h
      · exact d1 _ h
      · rcases List.mem_append.mp h with h' | h'
        · exact d2 _ h'
        · exact d3 _ h'
    simp at this
  have hX : "XXXX".toList = List.replicate g2.length 'X' := by rw [h2]; rfl
  unfold mask_aadhaar
  rw [hfil]
  simp only [hlen, htake, hdrop, hsp, if_false, if_neg (by omega : ¬ (12 : Nat) ≠ 12)]
  rw [List.append_assoc]
  apply shapePreserved_append (shapePreserved_refl g1)
  apply shapePreserved_append
  · rw [hX]; exact shapePreserved_digits_X d2
  · exact shapePreserved_refl g3
theorem mask_voter_id_shape (ls ds : Str) (hl : ls.length = 3) (hd : ds.length = 7)
    (dd : ∀ c ∈ ds, c.isDigit = true) :
    shapePreserved (ls ++ ds) (mask_voter_id (ls ++ ds)) = true := by
  unfold mask_voter_id
  have hlen : (ls ++ ds).length = 10 := by simp [hl, hd]
  have htake : (ls ++ ds).take 3 = ls := List.take_left' hl
  have hdrop : (ls ++ ds).drop ((ls ++ ds).length - 3) = ds.drop 4 := by
    rw [hlen]
    show (ls ++ ds).drop 7 = ds.drop 4
    have h7 : (7 : Nat) = ls.length + 4 := by omega
    rw [h7, List.drop_append]
  rw [htake, hdrop]
  have hX : List.replicate 4 'X' = List.replicate (ds.take 4).length 'X' := by
    simp [List.length_take, hd]
  rw [hX, List.append_assoc]
  nth_rewrite 1 [(List.take_append_drop 4 ds).symm]
  apply shapePreserved_append (shapePreserved_refl ls)
  apply shapePreserved_append
  · exact shapePreserved_digits_X (fun c hc => dd c (List.mem_of_mem_take hc))
  · exact shapePreserved_refl _

theorem mask_driving_license_shape (p0 p1 p2 : Str)
    (h0 : '/' ∉ p0) (h1 : '/' ∉ p1) (h2 : '/' ∉ p2)
    (hp1 : p1.length = 6) (dp1 : ∀ c ∈ p1, c.isDigit = true) :
    shapePreserved (p0 ++ '/' :: (p1 ++ '/' :: p2))
      (mask_driving_license (p0 ++ '/' :: (p1 ++ '/' :: p2))) = true := by
  unfold mask_driving_license
  rw [pySplit_append_sep '/' p0 h0, pySplit_append_sep '/' p1 h1, pySplit_no_sep '/' p2 h2]
  have hc : (([p0, p1, p2] : List Str).length == 3) = true := rfl
  simp only [hc, if_true, List.getD, List.get?, Option.getD]
  have he : p0 ++ "/XXXXXX/".toList ++ p2
      = p0 ++ '/' :: (List.replicate p1.length 'X' ++ '/' :: p2) := by
    rw [hp1]
    simp
  have goal2 : shapePreserved (p0 ++ '/' :: (p1 ++ '/' :: p2))
      (p0 ++ '/' :: (List.replicate p1.length 'X' ++ '/' :: p2)) = true := by
    apply shapePreserved_append (shapePreserved_refl p0)
    apply shapePreserved_cons_same
    apply shapePreserved_append (shapePreserved_digits_X dp1)
    exact shapePreserved_cons_same _ (shapePreserved_refl p2)
  rw [← he] at goal2
  simpa using goal2

theorem mask_dob_shape (d1 d2 y : Str) (h1 : '/' ∉ d1) (h2 : '/' ∉ d2) (hy : '/' ∉ y)
    (hl1 : d1.length = 2) (hl2 : d2.length = 2)
    (dd1 : ∀ c ∈ d1, c.isDigit = true) (dd2 : ∀ c ∈ d2, c.isDigit = true) :
    shapePreserved (d1 ++ '/' :: (d2 ++ '/' :: y))
      (mask_dob (d1 ++ '/' :: (d2 ++ '/' :: y))) = true := by
  unfold mask_dob
  rw [pySplit_append_sep '/' d1 h1, pySplit_append_sep '/' d2 h2, pySplit_no_sep '/' y hy]
  have he : "XX/XX/".toList ++ ([d1, d2, y].getLastD [])
      = List.replicate d1.length 'X' ++ '/' :: (List.replicate d2.length 'X' ++ '/' :: y) := by
    rw [hl1, hl2]
    rfl
  have goal2 : shapePreserved (d1 ++ '/' :: (d2 ++ '/' :: y))
      (List.replicate d1.length 'X' ++ '/' :: (List.replicate d2.length 'X' ++ '/' :: y))
        = true := by
    apply shapePreserved_append (shapePreserved_digits_X dd1)
    apply shapePreserved_cons_same
    apply shapePreserved_append (shapePreserved_digits_X dd2)
    exact shapePreserved_cons_same _ (shapePreserved_refl y)
  rw [← he] at goal2
  simpa using goal2

theorem mask_ip_octets (o1 o2 o3 o4 : Str)
    (h1 : '.' ∉ o1) (h2 : '.' ∉ o2) (h3 : '.' ∉ o3) (h4 : '.' ∉ o4) :
    mask_ip (o1 ++ '.' :: (o2 ++ '.' :: (o3 ++ '.' :: o4)))
      = o1 ++ '.' :: (o2 ++ ".X.X".toList) := by
  unfold mask_ip
  rw [pySplit_append_sep '.' o1 h1, pySplit_append_sep '.' o2 h2,
    pySplit_append_sep '.' o3 h3, pySplit_no_sep '.' o4 h4]
  simp [List.intercalate]
theorem luhn_check_iff (s : Str) :
    luhn_check s = true ↔
      13 ≤ (luhnSpecDigits s).length ∧ (luhnSpecDigits s).length ≤ 19 ∧
        luhnSumFrom false ((luhnSpecDigits s).reverse) % 10 = 0 := by
  have hfold := luhn_foldl_eq ((luhnSpecDigits s).reverse) 0 false
  rw [Nat.zero_add] at hfold
  unfold luhn_check
  unfold luhnSpecDigits at *
  simp only [List.length_map]
  by_cases hlt : (s.filter Char.isDigit).length < 13
  · rw [if_pos (by simp only [Bool.or_eq_true, decide_eq_true_eq]; exact Or.inl hlt)]
    simp only [Bool.false_eq_true, false_iff, not_and]
    intro h13
    omega
  · by_cases hgt : (s.filter Char.isDigit).length > 19
    · rw [if_pos (by simp only [Bool.or_eq_true, decide_eq_true_eq]; exact Or.inr hgt)]
      simp only [Bool.false_eq_true, false_iff, not_and]
      intro h13 h19
      exact absurd h19 (by omega)
    · rw [if_neg (by simp only [Bool.or_eq_true, decide_eq_true_eq]; omega)]
      rw [hfold]
      simp only [beq_iff_eq]
      exact ⟨fun h => ⟨by omega, by omega, h⟩, fun h => h.2.2⟩
theorem take_runLen_eq_takeWhile (q : Char → Bool) (s : Str) (i : Nat) :
    (s.drop i).take (runLen q s i) = (s.drop i).takeWhile q := by
  unfold runLen
  exact (List.prefix_iff_eq_take.mp (List.takeWhile_prefix q)).symm

theorem mem_take_runLen_digit {s : Str} {i : Nat} {c : Char}
    (hc : c ∈ (s.drop i).take (runLen Char.isDigit s i)) : c.isDigit = true := by
  rw [take_runLen_eq_takeWhile] at hc
  exact List.mem_takeWhile_imp hc

theorem length_take_runLen (q : Char → Bool) (s : Str) (i : Nat) :
    ((s.drop i).take (runLen q s i)).length = runLen q s i := by
  rw [take_runLen_eq_takeWhile]
  rfl

theorem take_split_at_dot (s : Str) (a r k : Nat) (hdot : s.get? (a + r) = some '.') :
    (s.drop a).take (r + (1 + k))
      = (s.drop a).take r ++ '.' :: (s.drop (a + r + 1)).take k := by
  rw [List.take_add]
  congr 1
  rw [List.drop_drop]
  have hlt : a + r < s.length := by
    by_contra hge
    rw [List.get?_eq_none.mpr (by omega)] at hdot
    cases hdot
  have hval : s[a + r] = '.' := by
    have h2 : s[a + r]? = some '.' := by
      rw [← List.get?_eq_getElem?]
      exact hdot
    rw [List.getElem?_eq_getElem hlt] at h2
    exact Option.some.inj h2
  rw [List.drop_eq_getElem_cons hlt, hval, Nat.add_comm 1 k, List.take_succ_cons]

theorem ipAll255_isSome {parts : List Str}
    (h : ∀ p ∈ parts, p ≠ [] ∧ ∀ c ∈ p, c.isDigit = true) :
    (ipAll255 parts).isSome = true := by
  induction parts with
  | nil => rfl
  | cons p rest ih =>
    have hp := h p (List.mem_cons_self p rest)
    have hrest := ih (fun x hx => h x (List.mem_cons_of_mem p hx))
    have hint : pyInt p = some (digitsToNat p) := by
      unfold pyInt
      rw [if_pos]
      simp only [Bool.and_eq_true, Bool.not_eq_true']
      exact ⟨by simpa [List.isEmpty_iff] using hp.1, List.all_eq_true.mpr hp.2⟩
    unfold ipAll255
    by_cases hd : pyIsDigit p = true
    · rw [if_pos hd]
      simp only [hint]
      by_cases hn : digitsToNat p ≤ 255
      · rw [if_pos hn]
        exact hrest
      · rw [if_neg hn]
        rfl
    · rw [if_neg hd]
      exact hrest

theorem matchAt_of_mem_finditerFrom (f : Str → Nat → Option Nat) (s : Str) :
    ∀ (fuel p0 : Nat) (m : PyMatch), m ∈ finditerFrom f s p0 fuel →
      f s m.start = some m.stop := by
  intro fuel
  induction fuel with
  | zero => intro p0 m hm; simp [finditerFrom] at hm
  | succ fuel ih =>
    intro p0 m hm
    unfold finditerFrom at hm
    by_cases hp : s.length < p0
    · rw [if_pos hp] at hm
      simp at hm
    · rw [if_neg hp] at hm
      cases hq : f s p0 with
      | some e =>
        rw [hq] at hm
        rcases List.mem_cons.mp hm with rfl | hm'
        · exact hq
        · exact ih _ m hm'
      | none =>
        rw [hq] at hm
        exact ih _ m hm

theorem ipOctetAt_some {s : Str} {p q : Nat} (h : ipOctetAt s p = some q) :
    1 ≤ runLen Char.isDigit s p ∧ runLen Char.isDigit s p ≤ 3 ∧
      s.get? (p + runLen Char.isDigit s p) = some '.' ∧
      q = p + runLen Char.isDigit s p + 1 := by
  simp only [ipOctetAt] at h
  split at h
  · next hc =>
    simp only [Bool.and_eq_true, decide_eq_true_eq, beq_iff_eq] at hc
    exact ⟨hc.1.1, hc.1.2, hc.2, (Option.some.inj h).symm⟩
  · cases h

theorem ip_candidate_validate_isSome (text : Str) (m : PyMatch)
    (hm : m ∈ finditer ipMatchAt text) :
    (validate_ip (pySlice text m.start m.stop)).isSome = true := by
  have hmatch : ipMatchAt text m.start = some m.stop :=
    matchAt_of_mem_finditerFrom ipMatchAt text _ _ m hm
  unfold ipMatchAt at hmatch
  split at hmatch
  · cases hmatch
  cases hq1e : ipOctetAt text m.start with
  | none => rw [hq1e] at hmatch; exact Option.noConfusion hmatch
  | some q1 =>
  simp only [hq1e] at hmatch
  cases hq2e : ipOctetAt text q1 with
  | none => rw [hq2e] at hmatch; exact Option.noConfusion hmatch
  | some q2 =>
  simp only [hq2e] at hmatch
  cases hq3e : ipOctetAt text q2 with
  | none => rw [hq3e] at hmatch; exact Option.noConfusion hmatch
  | some q3 =>
  simp only [hq3e] at hmatch
  obtain ⟨h11, h12, hdot1, hq1⟩ := ipOctetAt_some hq1e
  obtain ⟨h21, h22, hdot2, hq2⟩ := ipOctetAt_some hq2e
  obtain ⟨h31, h32, hdot3, hq3⟩ := ipOctetAt_some hq3e
  set r1 := runLen Char.isDigit text m.start with hr1
  set r2 := runLen Char.isDigit text q1 with hr2
  set r3 := runLen Char.isDigit text q2 with hr3
  set r4 := runLen Char.isDigit text q3 with hr4
  have hfin : 1 ≤ r4 ∧ m.stop = q3 + r4 := by
    split at hmatch
    · next hc =>
      simp only [Bool.and_eq_true, decide_eq_true_eq] at hc
      exact ⟨hc.1.1, (Option.some.inj hmatch).symm⟩
    · cases hmatch
  obtain ⟨h41, hstop⟩ := hfin
  have hsplit : pySlice text m.start m.stop
      = (text.drop m.start).take r1 ++ '.' ::
          ((text.drop q1).take r2 ++ '.' ::
            ((text.drop q2).take r3 ++ '.' :: (text.drop q3).take r4)) := by
    unfold pySlice
    have hlen : m.stop - m.start = r1 + (1 + (r2 + (1 + (r3 + (1 + r4))))) := by
      omega
    rw [hlen, take_split_at_dot text m.start r1 _ hdot1, ← hq1,
      take_split_at_dot text q1 r2 _ hdot2, ← hq2,
      take_split_at_dot text q2 r3 _ hdot3, ← hq3]
  have hdigit : ∀ (a r : Nat), r = runLen Char.isDigit text a →
      '.' ∉ (text.drop a).take r := by
    intro a r hr hmem
    rw [hr] at hmem
    have := mem_take_runLen_digit hmem
    simp at this
  have hparts : pySplit '.' (pySlice text m.start m.stop)
      = [(text.drop m.start).take r1, (text.drop q1).take r2,
         (text.drop q2).take r3, (text.drop q3).take r4] := by
    rw [hsplit, pySplit_append_sep '.' _ (hdigit m.start r1 hr1),
      pySplit_append_sep '.' _ (hdigit q1 r2 hr2),
      pySplit_append_sep '.' _ (hdigit q2 r3 hr3),
      pySplit_no_sep '.' _ (hdigit q3 r4 hr4)]
  have hnonempty : ∀ (a r : Nat), r = runLen Char.isDigit text a → 1 ≤ r →
      (text.drop a).take r ≠ [] := by
    intro a r hr h1 hnil
    have : ((text.drop a).take r).length = r := by
      rw [hr]
      exact length_take_runLen Char.isDigit text a
    rw [hnil] at this
    simp at this
    omega
  simp only [validate_ip, hparts]
  rw [if_pos (by rfl)]
  apply ipAll255_isSome
  intro part hpart
  simp only [List.mem_cons, List.not_mem_nil, or_false] at hpart
  rcases hpart with rfl | rfl | rfl | rfl
  · exact ⟨hnonempty m.start r1 hr1 h11,
      fun c hc => mem_take_runLen_digit (hr1 ▸ hc)⟩
  · exact ⟨hnonempty q1 r2 hr2 h21, fun c hc => mem_take_runLen_digit (hr2 ▸ hc)⟩
  · exact ⟨hnonempty q2 r3 hr3 h31, fun c hc => mem_take_runLen_digit (hr3 ▸ hc)⟩
  · exact ⟨hnonempty q3 r4 hr4 h41, fun c hc => mem_take_runLen_digit (hr4 ▸ hc)⟩

/-!
## Claim theorems
-/

/-- Claim C1 (counterexample): the claim asserts that replacements are
applied in *strictly* decreasing start-offset order, but two patterns
can match at the same start offset: on the field text
`987-654-3210@x.co` at threshold 0.7 the email match (0,17) and the
phone match (0,12) both start at 0, so the applied order (the stable
descending sort that the splice loop consumes) is not strictly
decreasing. -/
theorem claim_C1_counterexample :
    ¬ List.Pairwise (fun a b : String × PyMatch × ℚ => b.2.1.start < a.2.1.start)
      (appliedMatches (mkRat 7 10) ("987-654-3210@x.co".toList) []) := by decide

/-- Claim C1 (amended): the engine applies replacements in
non-increasing (weakly decreasing) start-offset order on a working copy
of the text; each Detection records the start/end offsets and raw value
of its match in the original pre-splice field text (the returned
detection keys are a permutation of the detector's results); and the
returned detection list is ordered ascending by start offset. -/
theorem claim_C1_redaction_order (thr : ℚ) (st : ProcState) (text context : Str) :
    List.Pairwise descByStart (appliedMatches thr text context) ∧
    List.Perm ((_deidentify_text_enhanced thr st text context).2.1.map detKey)
      ((find_all_enhanced thr text context).map (matchKey text)) ∧
    (∀ d ∈ (_deidentify_text_enhanced thr st text context).2.1,
      d.raw_value = pySlice text d.start d.stop) ∧
    List.Pairwise (fun d e : EnhancedDetection => d.start ≤ e.start)
      (_deidentify_text_enhanced thr st text context).2.1 := by
  refine ⟨appliedMatches_sorted thr text context, ?_, ?_,
    dets_sorted_ascending thr st text context⟩
  · rw [deidentify_dets_eq, List.map_reverse]
    refine (List.reverse_perm _).trans ?_
    rw [List.map_map]
    have he : detKey ∘ mkDetection text context = matchKey text :=
      funext (detKey_mkDetection text context)
    rw [he]
    exact (appliedMatches_perm thr text context).map _
  · intro d hd
    obtain ⟨x, -, rfl⟩ := mem_find_all_of_mem_dets thr st text context d hd
    rfl

/-- Claim C1 witness: instantiating the pre-splice-offset conjunct at
the email detection of `alice@example.com` with threshold 0.7. -/
theorem claim_C1_redaction_order_witness :
    (EnhancedDetection.mk (-1) "" "email" ("alice@example.com".toList)
        ("xxxx@example.com".toList) 0 17 1 []).raw_value
      = pySlice ("alice@example.com".toList) 0 17 :=
  (claim_C1_redaction_order (mkRat 7 10) initState
    ("alice@example.com".toList) []).2.2.1 _ (by decide)

/-- Claim C2: every detector result and every emitted Detection has
confidence at least the threshold; the per-type counters advance by
exactly the number of emitted detections of that type (so a discarded
candidate is never counted); and when no candidate reaches the
threshold the output text is the input unchanged (no span is masked). -/
theorem claim_C2_threshold_invariant (thr : ℚ) (st : ProcState) (text context : Str) :
    (∀ x ∈ find_all_enhanced thr text context, thr ≤ x.2.2) ∧
    (∀ d ∈ (_deidentify_text_enhanced thr st text context).2.1, thr ≤ d.confidence) ∧
    (∀ t : String,
      lookupD (_deidentify_text_enhanced thr st text context).2.2.det_counts t 0
        = lookupD st.det_counts t 0
          + ((_deidentify_text_enhanced thr st text context).2.1.filter
              (fun d => d.pii_type == t)).length) ∧
    (find_all_enhanced thr text context = [] →
      (_deidentify_text_enhanced thr st text context).1 = text) := by
  refine ⟨fun x hx => mem_find_all_threshold thr text context x hx, ?_, ?_,
    deidentify_text_of_no_matches thr st text context⟩
  · intro d hd
    obtain ⟨x, hx, rfl⟩ := mem_find_all_of_mem_dets thr st text context d hd
    exact mem_find_all_threshold thr text context x hx
  · intro t
    rw [deidentify_counts, dets_filter_length]

/-- Claim C2 witness: the email detection of `alice@example.com` at
threshold 0.7 carries confidence at least 0.7. -/
theorem claim_C2_threshold_invariant_witness :
    mkRat 7 10 ≤ (EnhancedDetection.mk (-1) "" "email" ("alice@example.com".toList)
        ("xxxx@example.com".toList) 0 17 1 []).confidence :=
  (claim_C2_threshold_invariant (mkRat 7 10) initState
    ("alice@example.com".toList) []).2.1 _ (by decide)

/-- Claim C4: raising the confidence threshold never increases the
number of detector results, nor the number of emitted detections. -/
theorem claim_C4_threshold_monotonicity (text context : Str) (st : ProcState)
    (t1 t2 : ℚ) (h : t1 ≤ t2) :
    (find_all_enhanced t2 text context).length
        ≤ (find_all_enhanced t1 text context).length ∧
    (_deidentify_text_enhanced t2 st text context).2.1.length
        ≤ (_deidentify_text_enhanced t1 st text context).2.1.length := by
  constructor
  · exact find_all_mono text context t1 t2 h
  · rw [dets_length_eq, dets_length_eq]
    exact find_all_mono text context t1 t2 h

/-- Claim C4 witness: thresholds 0.5 ≤ 0.7 on a concrete field. -/
theorem claim_C4_threshold_monotonicity_witness :
    (find_all_enhanced (mkRat 7 10) ("987-654-3210@x.co".toList) []).length
      ≤ (find_all_enhanced (mkRat 5 10) ("987-654-3210@x.co".toList) []).length :=
  (claim_C4_threshold_monotonicity ("987-654-3210@x.co".toList) [] initState
    (mkRat 5 10) (mkRat 7 10) (by decide)).1

/-- Claim C5 (counterexample): the per-type counters live on the
processor instance and are never reset per run — the `app.py` service
even shares one module-level `EnhancedProcessor` across uploads.
Running the text adapter twice on `alice@example.com` with the same
processor state makes the second run's summary report 2 email
detections while that run's own detection log has exactly 1. -/
theorem claim_C5_counterexample :
    lookupD (process_txt_enhanced (mkRat 7 10)
        (process_txt_enhanced (mkRat 7 10) initState
          ("alice@example.com".toList)).2.2.2
        ("alice@example.com".toList)).2.2.1.counts_by_type "email" 0 = 2 ∧
    ((process_txt_enhanced (mkRat 7 10)
        (process_txt_enhanced (mkRat 7 10) initState
          ("alice@example.com".toList)).2.2.2
        ("alice@example.com".toList)).2.1.filter
      (fun d => d.pii_type == "email")).length = 1 := by decide

/-- Claim C5 (amended): the summary's per-type count equals the
processor's running counter, which is the count carried into the run
plus the number of Detections of that type in the run's own log; for a
run starting from a freshly constructed processor (`initState`) the
carried-in count is zero and the claimed equality holds, while a second
run on the same instance folds the earlier run's detections in. -/
theorem claim_C5_session_counters (thr : ℚ) (st : ProcState) (text : Str) (t : String) :
    lookupD (process_txt_enhanced thr st text).2.2.1.counts_by_type t 0
      = lookupD st.det_counts t 0
        + ((process_txt_enhanced thr st text).2.1.filter
            (fun d => d.pii_type == t)).length := by
  have hcounts := deidentify_counts thr st text text t
  have hfilter := dets_filter_length thr st text text t
  have hm : (((_deidentify_text_enhanced thr st text text).2.1.map
      (fun d => { d with row_index := 1, column_name := "text" })).filter
        (fun d => d.pii_type == t)).length
      = ((_deidentify_text_enhanced thr st text text).2.1.filter
          (fun d => d.pii_type == t)).length := by
    rw [← List.countP_eq_length_filter, ← List.countP_eq_length_filter, List.countP_map]
    rfl
  have e1 : (process_txt_enhanced thr st text).2.2.1.counts_by_type
      = (_deidentify_text_enhanced thr st text text).2.2.det_counts := rfl
  have e2 : (process_txt_enhanced thr st text).2.1
      = (_deidentify_text_enhanced thr st text text).2.1.map
          (fun d => { d with row_index := 1, column_name := "text" }) := rfl
  rw [e1, e2, hm, hfilter]
  exact hcounts

/-- Claim C6: the payment-card validator accepts exactly the strings
that, after stripping non-digits, have 13-19 digits and pass the Luhn
mod-10 check (doubling every second digit from the right, subtracting 9
from doubled digits above 9, total divisible by 10). -/
theorem claim_C6_luhn (s : Str) :
    luhn_check s = true ↔
      13 ≤ (luhnSpecDigits s).length ∧ (luhnSpecDigits s).length ≤ 19 ∧
        luhnSumFrom false ((luhnSpecDigits s).reverse) % 10 = 0 :=
  luhn_check_iff s

/-- Claim C7 (counterexample): the adapter's check is only
`isinstance(data, list) and all(isinstance(item, dict))` — values are
never checked for flatness, so a record whose value is a nested dict is
processed without any malformed-input error. -/
theorem claim_C7_counterexample :
    isFlatRecordArray (JVal.arr [JVal.obj [("a", JVal.obj [])]]) = false ∧
    exceptOk (process_json_enhanced (mkRat 7 10) initState
      (JVal.arr [JVal.obj [("a", JVal.obj [])]])) = true := by
  constructor
  · rfl
  · rfl

/-- Claim C7 (amended): the record-list adapter fails with the
malformed-input `ValueError` exactly when the document is not an array
of associative records (a list of dicts); the values of the records are
not required to be scalar — nested values are stringified and
processed. -/
theorem claim_C7_record_list_errors (thr : ℚ) (st : ProcState) (data : JVal) :
    (isListOfDicts data = true → ∃ v, process_json_enhanced thr st data = Except.ok v) ∧
    (isListOfDicts data = false →
      process_json_enhanced thr st data = Except.error jsonErrMsg) := by
  cases data with
  | arr items =>
    constructor
    · intro h
      have h' : items.all JVal.isObj = true := h
      refine ⟨((items.enum.foldl (processRecord thr) ([], [], st)).1,
        (items.enum.foldl (processRecord thr) ([], [], st)).2.1,
        _generate_summary (items.enum.foldl (processRecord thr) ([], [], st)).2.2
          (items.enum.foldl (processRecord thr) ([], [], st)).2.1,
        (items.enum.foldl (processRecord thr) ([], [], st)).2.2), ?_⟩
      simp only [process_json_enhanced, h', if_true]
    · intro h
      have h' : items.all JVal.isObj = false := h
      simp only [process_json_enhanced, h', if_false, Bool.false_eq_true]
  | str s => exact ⟨fun h => (Bool.false_ne_true h).elim, fun _ => rfl⟩
  | num n => exact ⟨fun h => (Bool.false_ne_true h).elim, fun _ => rfl⟩
  | bool b => exact ⟨fun h => (Bool.false_ne_true h).elim, fun _ => rfl⟩
  | null => exact ⟨fun h => (Bool.false_ne_true h).elim, fun _ => rfl⟩
  | obj fs => exact ⟨fun h => (Bool.false_ne_true h).elim, fun _ => rfl⟩

/-- Claim C7 witness: a one-record flat document is accepted. -/
theorem claim_C7_record_list_errors_witness :
    ∃ v, process_json_enhanced (mkRat 7 10) initState
      (JVal.arr [JVal.obj [("name", JVal.str ("bob".toList))]]) = Except.ok v :=
  (claim_C7_record_list_errors (mkRat 7 10) initState
    (JVal.arr [JVal.obj [("name", JVal.str ("bob".toList))]])).1 rfl

/-- Claim C8 (code bug): `validate_ip("1.2.3.x")` returns `True` because
the comprehension's `if p.isdigit()` filter silently skips non-digit
octets instead of rejecting them, contradicting the validator's
documented task of checking 4 octets in 0-255 (the spec's reading,
`ip4Spec`, rejects it). -/
theorem claim_C8_ip_validator_bug :
    validate_ip ("1.2.3.x".toList) = some true ∧ ip4Spec ("1.2.3.x".toList) = false := by
  decide

/-- Claim C9 (code bug): the validators are claimed never to raise, but
`validate_ip` can: the superscript `'²'` satisfies `str.isdigit` (the
comprehension's filter keeps the part) while `int('²')` raises
`ValueError`, so `validate_ip("1.2.3.²")` raises instead of returning a
boolean.  The other exception sites are guarded — `verhoeff_validate`
and `validate_dob` catch their parse failures and return `False` — so
the slip is exactly the unprotected `int()` behind the too-wide
`isdigit` filter. -/
theorem claim_C9_ip_validator_raises :
    pyCharIsDigit '²' = true ∧
    pyInt ['²'] = none ∧
    validate_ip ("1.2.3.²".toList) = none ∧
    (∀ s : Str, verhoeffLoop s = none → verhoeff_validate s = false) ∧
    (∀ s : Str, pyStrptimeDMY s = none → validate_dob s = false) := by
  refine ⟨by decide, by decide, by decide, ?_, ?_⟩
  · intro s h
    unfold verhoeff_validate
    rw [h]
  · intro s h
    unfold validate_dob
    rw [h]

/-- Claim C9 witness: the caught exception paths at concrete inputs. -/
theorem claim_C9_ip_validator_raises_witness :
    verhoeff_validate ("12a".toList) = false ∧
    validate_dob ("99/99/9999".toList) = false :=
  ⟨claim_C9_ip_validator_raises.2.2.2.1 ("12a".toList) (by decide),
   claim_C9_ip_validator_raises.2.2.2.2 ("99/99/9999".toList) (by decide)⟩

/-- Claim C10: the confidence scorer has no branch for the pan and
email types, so their candidates always score exactly 1.0; hence for
any threshold at most 1 every pan/email pattern match appears in the
detector's results and yields a Detection in the redaction engine's
log. -/
theorem claim_C10_pan_email_unconditional (thr : ℚ) (st : ProcState)
    (text context : Str) (h : thr ≤ 1) :
    (∀ mt ctx : Str, _calculate_confidence "pan" mt ctx = 1 ∧
        _calculate_confidence "email" mt ctx = 1) ∧
    (∀ m ∈ finditer panMatchAt text,
        ("pan", m, (1 : ℚ)) ∈ find_all_enhanced thr text context ∧
        mkDetection text context ("pan", m, 1)
          ∈ (_deidentify_text_enhanced thr st text context).2.1) ∧
    (∀ m ∈ finditer emailMatchAt text,
        ("email", m, (1 : ℚ)) ∈ find_all_enhanced thr text context ∧
        mkDetection text context ("email", m, 1)
          ∈ (_deidentify_text_enhanced thr st text context).2.1) := by
  refine ⟨fun mt ctx => ⟨conf_pan mt ctx, conf_email mt ctx⟩, ?_, ?_⟩
  · intro m hm
    have hf := pan_match_in_find_all thr text context h m hm
    exact ⟨hf, mem_dets_of_mem_find_all thr st text context _ hf⟩
  · intro m hm
    have hf := email_match_in_find_all thr text context h m hm
    exact ⟨hf, mem_dets_of_mem_find_all thr st text context _ hf⟩

/-- Claim C10 witness: the email match of `alice@example.com` at
threshold 0.7 is in the detector output and in the detection log. -/
theorem claim_C10_pan_email_unconditional_witness :
    ("email", PyMatch.mk 0 17, (1 : ℚ))
        ∈ find_all_enhanced (mkRat 7 10) ("alice@example.com".toList) [] ∧
    mkDetection ("alice@example.com".toList) [] ("email", PyMatch.mk 0 17, 1)
        ∈ (_deidentify_text_enhanced (mkRat 7 10) initState
            ("alice@example.com".toList) []).2.1 :=
  (claim_C10_pan_email_unconditional (mkRat 7 10) initState
    ("alice@example.com".toList) [] (by decide)).2.2 (PyMatch.mk 0 17) (by decide)
/-- Claim C3 (counterexample): three digit-masking types violate the
claim on values their own patterns match. `mask_dob` halves the digit
count (`15/08/1990` → `XX/XX/1990`); `mask_ip` moves and drops
non-digit dots (`192.168.10.20` → `192.168.X.X`); `mask_aadhaar` drops
tab separators that the aadhaar pattern's `\s` accepts. -/
theorem claim_C3_counterexample :
    (dobMatchAt ("15/08/1990".toList) 0 = some 10 ∧
      formatPreservedClaim ("15/08/1990".toList) (mask_dob ("15/08/1990".toList)) = false) ∧
    (ipMatchAt ("192.168.10.20".toList) 0 = some 13 ∧
      formatPreservedClaim ("192.168.10.20".toList)
        (mask_ip ("192.168.10.20".toList)) = false) ∧
    (aadhaarMatchAt ("1234\t5678\t9012".toList) 0 = some 14 ∧
      formatPreservedClaim ("1234\t5678\t9012".toList)
        (mask_aadhaar ("1234\t5678\t9012".toList)) = false) := by decide

/-- Claim C3 (amended): the digit maskers preserve layout, not digit
count: for card and phone masks (any input), for the aadhaar mask on
space-separated or unseparated 12-digit matches, and for voter-ID,
driving-license and DOB masks on pattern-shaped matches, the masked
value has the same length as the raw value, keeps every non-digit
character at its position, and puts a digit or the filler `X` at every
digit position; the IP mask instead keeps the first two octets verbatim
and replaces the last two octets with single `X`s. -/
theorem claim_C3_format_preservation :
    (∀ cc : Str, shapePreserved cc (mask_credit_card_enhanced cc) = true) ∧
    (∀ ph : Str, shapePreserved ph (mask_phone_enhanced ph) = true) ∧
    (∀ g1 g2 g3 : Str, g1.length = 4 → g2.length = 4 → g3.length = 4 →
      (∀ c ∈ g1, c.isDigit = true) → (∀ c ∈ g2, c.isDigit = true) →
      (∀ c ∈ g3, c.isDigit = true) →
      shapePreserved (g1 ++ ' ' :: (g2 ++ ' ' :: g3))
          (mask_aadhaar (g1 ++ ' ' :: (g2 ++ ' ' :: g3))) = true ∧
      shapePreserved (g1 ++ (g2 ++ g3)) (mask_aadhaar (g1 ++ (g2 ++ g3))) = true) ∧
    (∀ ls ds : Str, ls.length = 3 → ds.length = 7 → (∀ c ∈ ds, c.isDigit = true) →
      shapePreserved (ls ++ ds) (mask_voter_id (ls ++ ds)) = true) ∧
    (∀ p0 p1 p2 : Str, '/' ∉ p0 → '/' ∉ p1 → '/' ∉ p2 → p1.length = 6 →
      (∀ c ∈ p1, c.isDigit = true) →
      shapePreserved (p0 ++ '/' :: (p1 ++ '/' :: p2))
        (mask_driving_license (p0 ++ '/' :: (p1 ++ '/' :: p2))) = true) ∧
    (∀ d1 d2 y : Str, '/' ∉ d1 → '/' ∉ d2 → '/' ∉ y → d1.length = 2 → d2.length = 2 →
      (∀ c ∈ d1, c.isDigit = true) → (∀ c ∈ d2, c.isDigit = true) →
      shapePreserved (d1 ++ '/' :: (d2 ++ '/' :: y))
        (mask_dob (d1 ++ '/' :: (d2 ++ '/' :: y))) = true) ∧
    (∀ o1 o2 o3 o4 : Str, '.' ∉ o1 → '.' ∉ o2 → '.' ∉ o3 → '.' ∉ o4 →
      mask_ip (o1 ++ '.' :: (o2 ++ '.' :: (o3 ++ '.' :: o4)))
        = o1 ++ '.' :: (o2 ++ ".X.X".toList)) :=
  ⟨mask_credit_card_shape, mask_phone_shape,
    fun g1 g2 g3 h1 h2 h3 d1 d2 d3 =>
      ⟨mask_aadhaar_shape_spaced g1 g2 g3 h1 h2 h3 d1 d2 d3,
       mask_aadhaar_shape_plain g1 g2 g3 h1 h2 h3 d1 d2 d3⟩,
    fun ls ds hl hd dd => mask_voter_id_shape ls ds hl hd dd,
    fun p0 p1 p2 h0 h1 h2 hp1 dp1 => mask_driving_license_shape p0 p1 p2 h0 h1 h2 hp1 dp1,
    fun d1 d2 y h1 h2 hy hl1 hl2 dd1 dd2 => mask_dob_shape d1 d2 y h1 h2 hy hl1 hl2 dd1 dd2,
    fun o1 o2 o3 o4 h1 h2 h3 h4 => mask_ip_octets o1 o2 o3 o4 h1 h2 h3 h4⟩

/-- Claim C3 witness: the amended shape preservation at concrete
matched values of the card, aadhaar, voter-ID and IP types. -/
theorem claim_C3_format_preservation_witness :
    shapePreserved ("4111 1111 1111 1111".toList)
        (mask_credit_card_enhanced ("4111 1111 1111 1111".toList)) = true ∧
    shapePreserved ("1234 5678 9012".toList)
        (mask_aadhaar ("1234 5678 9012".toList)) = true ∧
    shapePreserved ("ABC1234567".toList) (mask_voter_id ("ABC1234567".toList)) = true ∧
    mask_ip ("192.168.10.20".toList) = ("192.168.X.X".toList) :=
  ⟨claim_C3_format_preservation.1 _,
   (claim_C3_format_preservation.2.2.1 ("1234".toList) ("5678".toList) ("9012".toList)
     rfl rfl rfl (by decide) (by decide) (by decide)).1,
   claim_C3_format_preservation.2.2.2.1 ("ABC".toList) ("1234567".toList)
     rfl rfl (by decide),
   claim_C3_format_preservation.2.2.2.2.2.2 ("192".toList) ("168".toList)
     ("10".toList) ("20".toList) (by decide) (by decide) (by decide) (by decide)⟩
/-!
## Conformance checks

Concrete evaluations of the embedding, cross-checked against the
behaviour of the Python module (regex matching, validators, maskers
including the hash digests, and the full engine).
-/

example : verhoeff_validate ("123456789012".toList) = false := by decide
example : luhn_check ("4111 1111 1111 1111".toList) = true := by decide
example : validate_ip ("1.2.3.x".toList) = some true := by decide
example : validate_ip ("1.2.3.²".toList) = none := by decide
example : validate_ip ("300.².1.1".toList) = some false := by decide
example : validate_dob ("15/08/1990".toList) = true := by decide
example : validate_dob ("31/02/2000".toList) = false := by decide

example : finditer emailMatchAt ("987-654-3210@x.co".toList) = [PyMatch.mk 0 17] := by decide
example : finditer phoneMatchAt ("987-654-3210@x.co".toList) = [PyMatch.mk 0 12] := by decide
example : finditer creditCardMatchAt ("1111 1111 1111 1111 1111a".toList)
    = [PyMatch.mk 0 19] := by decide
example : finditer creditCardMatchAt ("11111111111111111111".toList) = [] := by decide
example : finditer bankAccountMatchAt ("1234567890123 x 12345678901234567 acc".toList)
    = [PyMatch.mk 0 13, PyMatch.mk 16 33] := by decide
example : finditer aadhaarMatchAt ("Aadhaar: 1234\t5678\t9012 done".toList)
    = [PyMatch.mk 9 23] := by decide
example : finditer ipMatchAt ("x1234.5.6.78 .a@b.co 25/13/1999".toList) = [] := by decide
example : finditer emailMatchAt ("email .alice@ex.com9 end".toList) = [] := by decide
example : finditer phoneMatchAt ("+91 9876543210".toList) = [PyMatch.mk 4 14] := by decide
example : finditer phoneMatchAt ("a+91-9876543210b".toList) = [] := by decide
example : finditer dobMatchAt ("15/08/1990 and 31/02/2000".toList)
    = [PyMatch.mk 0 10, PyMatch.mk 15 25] := by decide
example : finditer ipMatchAt ("1.2.3.4.5 10.0.0.256 999.999.999.999".toList)
    = [PyMatch.mk 0 7, PyMatch.mk 10 20, PyMatch.mk 21 36] := by decide

example : mask_credit_card_enhanced ("4111 1111 1111 1111".toList)
    = ("XXXX XXXX XXXX 1111".toList) := by decide
example : mask_aadhaar ("1234 5678 9012".toList) = ("1234 XXXX 9012".toList) := by decide
example : pseudo_email ("alice@example.com".toList) = ("xxxx@example.com".toList) := by decide
example : mask_dob ("15/08/1990".toList) = ("XX/XX/1990".toList) := by decide
example : anonymize_pan ("ABCDE1234F".toList) = ("PAN_6442FD73A9".toList) := by decide
example : anonymize_bank_account ("123456789012".toList)
    = ("ACCT_2A33349E7E60".toList) := by decide
example : anonymize_ifsc ("SBIN0001234".toList) = ("SBIN053089F".toList) := by decide
example : anonymize_medical_id ("MED12345678".toList) = ("MED0FE23474".toList) := by decide

example : (_deidentify_text_enhanced (mkRat 7 10) initState
    ("987-654-3210@x.co".toList) ("".toList)).1 = ("XXX-XXX-3210".toList) := by decide
example : ((_deidentify_text_enhanced (mkRat 7 10) initState
    ("987-654-3210@x.co".toList) ("".toList)).2.1.map
      (fun d => (d.pii_type, d.start, d.stop, d.confidence)))
    = [("phone", 0, 12, mkRat 9 10), ("email", 0, 17, 1)] := by decide
example : (_deidentify_text_enhanced (mkRat 6 10) initState
    ("Account no 123456789012 status".toList) ("Account no 123456789012 status".toList)).1
    = ("Account no ACCT_2A33349E7E60 status".toList) := by decide
example : ((_deidentify_text_enhanced (mkRat 6 10) initState
    ("Account no 123456789012 status".toList)
    ("Account no 123456789012 status".toList)).2.1.map
      (fun d => (d.pii_type, d.start, d.stop, d.confidence)))
    = [("bank_account", 11, 23, mkRat 8 10), ("aadhaar", 11, 23, mkRat 7 10)] := by decide
example : (_deidentify_text_enhanced (mkRat 6 10) initState
    ("Account no 123456789012 status".toList)
    ("Account no 123456789012 status".toList)).2.2.det_counts
    = [("aadhaar", 1), ("bank_account", 1)] := by decide
